import Mathlib

/-!
Verification of the failure-analysis engine of the API log monitoring
repository (`root_cause_analyzer.py`).  The Python code is shallowly
embedded: pandas dataframes become lists of `Record`s, Python dicts become
association lists built in insertion order, Python floats become exact
unreduced fractions (`Frac`), and the one genuinely fallible analyzer
(response-time clustering, which passes the raw column to scikit-learn)
returns `Except`.  All definitions are executable so that concrete windows
evaluate by `decide`.
-/

namespace APILog

deriving instance DecidableEq for Except

/-- Exact unreduced fraction: models the Python float arithmetic of the
analyzer (`a / b`, `* 100`, `* 1.5`, ...) without floating-point error.
The denominator is kept as produced by the source expression; equality of
values is via `toRat`. -/
structure Frac where
  num : Int
  den : Nat
deriving DecidableEq

/-- Value of a fraction as a rational number (denominator 0 never arises
on the paths the source takes, since it only divides by positive counts). -/
def Frac.toRat (q : Frac) : ℚ := (q.num : ℚ) / (q.den : ℚ)

/-- Cross-multiplication strict order, `a/b < c/d` for positive denominators. -/
def fracLt (x y : Frac) : Bool := x.num * (y.den : Int) < y.num * (x.den : Int)

/-- `a/b + c/d = (a*d + c*b)/(b*d)` (exact, no normalisation). -/
def fracAdd (x y : Frac) : Frac := ⟨x.num * (y.den : Int) + y.num * (x.den : Int), x.den * y.den⟩

/-- `a/b * c/d = (a*c)/(b*d)`. -/
def fracMul (x y : Frac) : Frac := ⟨x.num * y.num, x.den * y.den⟩

/-- `a/b - c/d`. -/
def fracSub (x y : Frac) : Frac := ⟨x.num * (y.den : Int) - y.num * (x.den : Int), x.den * y.den⟩

/-- Absolute value. -/
def fracAbs (x : Frac) : Frac := ⟨|x.num|, x.den⟩

/-- `q / n` for a natural count `n`. -/
def fracDivNat (q : Frac) (n : Nat) : Frac := ⟨q.num, q.den * n⟩

/-- The fraction `a / b` produced by Python division of two counts. -/
def ratio (a b : Nat) : Frac := ⟨(a : Int), b⟩

/-- Embed a natural number. -/
def fracOfNat (n : Nat) : Frac := ⟨(n : Int), 1⟩

/-- Round `nn / dd` to the nearest integer, ties to even (the IEEE-754
default rounding used by CPython's float arithmetic). -/
def roundMantissa (nn dd : Nat) : Nat :=
  let q := nn / dd
  let r := nn % dd
  if 2 * r < dd then q
  else if dd < 2 * r then q + 1
  else if q % 2 = 0 then q else q + 1

/-- Fuel-driven floor of the base-2 logarithm. -/
def log2fuel : Nat → Nat → Nat
  | 0, _ => 0
  | fuel + 1, n => if 2 ≤ n then log2fuel fuel (n / 2) + 1 else 0

/-- `floor(log2 n)` for positive `n` (0 at 0); the fuel `n` always
suffices since the recursion halves its argument. -/
def natLog2 (n : Nat) : Nat := log2fuel n n

/-- Does `2 ^ e ≤ a / b` hold, for positive `a`, `b` and an integer
exponent? -/
def pow2le (e : Int) (a b : Nat) : Bool :=
  match e with
  | .ofNat k => decide (b * 2 ^ k ≤ a)
  | .negSucc k => decide (b ≤ a * 2 ^ (k + 1))

/-- The exponent `e` with `2 ^ e ≤ a / b < 2 ^ (e + 1)` for positive
`a`, `b`: the floor-log2 difference is off by at most one, fixed by a
single test. -/
def floorLog2Q (a b : Nat) : Int :=
  let c : Int := (natLog2 a : Int) - (natLog2 b : Int)
  if pow2le c a b then c else c - 1

/-- Round an exact fraction to the nearest IEEE-754 binary64 value
(53-bit mantissa, round to nearest, ties to even), returned as the exact
value of that double.  Overflow and subnormals are outside the model: the
analyzer only rounds ordinary magnitudes (rates and percentages). -/
def fl (x : Frac) : Frac :=
  if x.num = 0 ∨ x.den = 0 then ⟨0, 1⟩
  else
    let a := x.num.natAbs
    let b := x.den
    let k : Int := 52 - floorLog2Q a b
    let n :=
      if 0 ≤ k then roundMantissa (a * 2 ^ k.toNat) b
      else roundMantissa a (b * 2 ^ (-k).toNat)
    let mag : Frac := if 0 ≤ k then ⟨(n : Int), 2 ^ k.toNat⟩
      else ⟨(n : Int) * 2 ^ (-k).toNat, 1⟩
    if x.num < 0 then ⟨-mag.num, mag.den⟩ else mag

/-- Python `a / b` on two ints: true division produces the correctly
rounded binary64 quotient. -/
def fdivNat64 (a b : Nat) : Frac := fl (ratio a b)

/-- Binary64 multiplication: the correctly rounded exact product. -/
def fmul64 (x y : Frac) : Frac := fl (fracMul x y)

/-- Scalar value of a JSON field as Python sees it after `json.loads`
(the subset of scalars relevant to the `error` field; nested values do not
occur in the repository's log producer). -/
inductive PyVal where
  | str (s : String)
  | intVal (n : Int)
  | boolVal (b : Bool)
  | noneVal
deriving DecidableEq

/-- Python `str()` of a scalar, as applied by
`str(row['response_body']['error'])`. -/
def pyStr : PyVal → String
  | .str s => s
  | .intVal n => toString n
  | .boolVal true => "True"
  | .boolVal false => "False"
  | .noneVal => "None"

/-- The `response_body` column of a record: missing (NaN after the
dataframe join), present but not a mapping, or a mapping. -/
inductive RespBody where
  | absent
  | nonDict
  | dict (fields : List (String × PyVal))
deriving DecidableEq

/-- One API log record (a dataframe row).  `timestamp` is in seconds;
pandas `dt.hour` is `timestamp / 3600 % 24` and `dt.floor('T')` is the
minute index `timestamp / 60`.  `response_time_ms` is optional exactly as
in the logs (absent values surface as NaN in the dataframe). -/
structure Record where
  timestamp : Nat
  client_ip : String
  endpoint : String
  method : String
  status_code : Nat
  response_time_ms : Option Frac
  response_body : RespBody
deriving DecidableEq

/-- `keyword in error_message`: substring containment, Python `in` on str. -/
def containsSub (hay needle : String) : Bool := decide (needle.data <:+: hay.data)

/-- ASCII lowercasing of one character (the log messages of this system are
ASCII; Python `str.lower()` restricted to that alphabet). -/
def lowerChar (c : Char) : Char :=
  if 65 ≤ c.toNat ∧ c.toNat ≤ 90 then Char.ofNat (c.toNat + 32) else c

/-- Python `str.lower()`. -/
def lowerStr (s : String) : String := ⟨s.data.map lowerChar⟩

/-- `self.error_patterns` (lines 38-47): the fixed category taxonomy in
insertion order, each with its keyword list. -/
def error_patterns : List (String × List String) :=
  [("auth_failure", ["unauthorized", "forbidden", "auth fail", "not authenticated", "invalid token", "token expired"]),
   ("rate_limit", ["rate limit", "too many requests", "request quota", "throttled"]),
   ("invalid_input", ["invalid input", "invalid parameter", "validation error", "bad request", "malformed"]),
   ("timeout", ["timeout", "timed out", "deadline exceeded", "connection timeout"]),
   ("resource_unavailable", ["not found", "no such resource", "resource unavailable", "does not exist"]),
   ("server_error", ["internal server error", "service unavailable", "internal error", "server error"]),
   ("dependency_failure", ["dependency failed", "upstream service", "downstream service", "service dependency"]),
   ("concurrency", ["conflict", "race condition", "already exists", "duplicate"])]

/-- `any(keyword in error_message for keyword in keywords)` (line 118). -/
def matchesCategory (msg : String) (kws : List String) : Bool :=
  kws.any (fun kw => containsSub msg kw)

/-- The `for pattern_name, keywords in self.error_patterns.items()` loop
with `break` on first match and `unclassified` fallback (lines 116-132),
factored over the pattern list it walks. -/
def classifyMessage : List (String × List String) → String → String
  | [], _ => "unclassified"
  | (nm, kws) :: rest, msg =>
    if matchesCategory msg kws then nm else classifyMessage rest msg

/-- Category assigned to one error message. -/
def classify (msg : String) : String := classifyMessage error_patterns msg

/-- Extraction of the error message from a record (lines 110-113):
`error_message = ''` unless `response_body` is a dict with an `error`
key, in which case `str(...).lower()` of its value. -/
def extract_error_message : RespBody → String
  | .dict fields =>
    match fields.lookup "error" with
    | some v => lowerStr (pyStr v)
    | Option.none => ""
  | _ => ""

/-- `defaultdict(int)` increment `d[k] += 1`, on an insertion-ordered
association list (Python 3.7+ dicts preserve insertion order). -/
def bump {κ : Type} [DecidableEq κ] : List (κ × Nat) → κ → List (κ × Nat)
  | [], k => [(k, 1)]
  | (k', n) :: rest, k =>
    if k' = k then (k', n + 1) :: rest else (k', n) :: bump rest k

/-- A counter dict built by one increment per list element. -/
def tally {κ : Type} [DecidableEq κ] (L : List κ) : List (κ × Nat) := L.foldl bump []

/-- `defaultdict(list)` append `d[k].append(x)`. -/
def dictPush {κ α : Type} [DecidableEq κ] : List (κ × List α) → κ → α → List (κ × List α)
  | [], k, x => [(k, [x])]
  | (k', xs) :: rest, k, x =>
    if k' = k then (k', xs ++ [x]) :: rest else (k', xs) :: dictPush rest k x

/-- Dict read with default 0, `d.get(k, 0)`. -/
def lookupD {κ : Type} [DecidableEq κ] : List (κ × Nat) → κ → Nat
  | [], _ => 0
  | (k', n) :: rest, k => if k' = k then n else lookupD rest k

/-- Number of occurrences of an element in a list. -/
def countOcc {β : Type} [DecidableEq β] (x : β) : List β → Nat
  | [] => 0
  | y :: t => (if y = x then 1 else 0) + countOcc x t

/-- `status_code >= 400`. -/
def isError (r : Record) : Bool := decide (400 ≤ r.status_code)

/-- `df[df['status_code'] >= 400]`. -/
def errorRecords (w : List Record) : List Record := w.filter isError

/-- Category assigned to one record by the classifier loop. -/
def recordCategory (r : Record) : String := classify (extract_error_message r.response_body)

/-- One per-record detail entry appended to `pattern_details` (lines 120-126). -/
structure ErrorDetail where
  timestamp : Nat
  endpoint : String
  method : String
  status_code : Nat
  message : String
deriving DecidableEq

def mkDetail (r : Record) : ErrorDetail :=
  ⟨r.timestamp, r.endpoint, r.method, r.status_code, extract_error_message r.response_body⟩

/-- Body of the `for _, row in errors_df.iterrows()` loop (lines 109-139):
bump the matched category's counter and append the detail record. -/
def patternStep (st : List (String × Nat) × List (String × List ErrorDetail)) (r : Record) :
    List (String × Nat) × List (String × List ErrorDetail) :=
  (bump st.1 (recordCategory r), dictPush st.2 (recordCategory r) (mkDetail r))

/-- Output of `identify_error_patterns` in the non-trivial case (lines 144-150). -/
structure ErrorPatternsReport where
  error_count : Nat
  error_rate : Frac
  error_types : List (String × Nat)
  error_percentages : List (String × Frac)
  pattern_details : List (String × List ErrorDetail)
deriving DecidableEq

/-- The three return shapes of `identify_error_patterns`: `{}` for an
empty frame, the zero summary when no rows have `status_code >= 400`,
and the full report otherwise. -/
inductive ErrorPatternsResult where
  | empty
  | noErrors
  | report (r : ErrorPatternsReport)
deriving DecidableEq

/-- `identify_error_patterns` (lines 82-150).  Line 142 computes each
percentage as `v / error_count * 100` in binary64 floating point: the
stored value is the correctly rounded double of the rounded quotient
times 100, modelled exactly by `fdivNat64`/`fmul64`. -/
def identify_error_patterns (w : List Record) : ErrorPatternsResult :=
  if w = [] then .empty
  else
    let errors := errorRecords w
    if errors = [] then .noErrors
    else
      let error_count := errors.length
      let error_rate := ratio error_count w.length
      let st := errors.foldl patternStep ([], [])
      .report ⟨error_count, error_rate, st.1,
        st.1.map (fun p => (p.1, fmul64 (fdivNat64 p.2 error_count) (fracOfNat 100))), st.2⟩

/-- pandas `dt.hour` for an epoch-second timestamp (naive local time, as
the source leaves the timezone unpinned). -/
def hourOf (r : Record) : Nat := r.timestamp / 3600 % 24

/-- One entry of `hourly_error_rates` (lines 334-344). -/
structure HourBucket where
  error_count : Nat
  request_count : Nat
  error_rate : Frac
deriving DecidableEq

/-- Output of `analyze_periodic_failures` in the non-trivial case. -/
structure PeriodicReport where
  hourly_error_rates : List (Nat × HourBucket)
  problematic_hours : List (Nat × HourBucket)
  avg_error_rate : Frac
deriving DecidableEq

/-- `hourly_requests[hour]`: how many records fall in the given hour. -/
def requestsAtHour (w : List Record) (h : Nat) : Nat :=
  (w.filter (fun r => decide (hourOf r = h))).length

/-- `hourly_errors.get(hour, 0)`. -/
def errorsAtHour (w : List Record) (h : Nat) : Nat := requestsAtHour (errorRecords w) h

/-- The per-hour bucket built by the `for hour in range(24)` loop
(lines 329-344): zero-filled when the hour has no requests. -/
def hourlyBucket (w : List Record) (h : Nat) : HourBucket :=
  let request_count := requestsAtHour w h
  if 0 < request_count then
    let error_count := errorsAtHour w h
    ⟨error_count, request_count,
     if 0 < request_count then ratio error_count request_count else fracOfNat 0⟩
  else ⟨0, 0, fracOfNat 0⟩

/-- `analyze_periodic_failures` (lines 300-358); `{}` is returned both for
an empty frame and for a window without error records.  The problematic
filter uses `error_rate > avg_error_rate * 1.5` with `1.5 = 3/2`. -/
def analyze_periodic_failures (w : List Record) : Option PeriodicReport :=
  if w = [] then none
  else if errorRecords w = [] then none
  else
    let hourly := (List.range 24).map (fun h => (h, hourlyBucket w h))
    let avg := ratio (errorRecords w).length w.length
    let problematic := hourly.filter
      (fun p => decide (0 < p.2.request_count) &&
        fracLt (fracMul avg ⟨3, 2⟩) p.2.error_rate)
    some ⟨hourly, problematic, avg⟩

/-- pandas `dt.floor('T')` as a minute index of an epoch-second timestamp. -/
def minuteOf (r : Record) : Nat := r.timestamp / 60

/-- `error_minutes` (line 380): the distinct minute buckets containing at
least one error record, as a duplicate-free list in first-occurrence order
(a Python `set` of the column). -/
def errorMinutes (w : List Record) : List Nat :=
  ((errorRecords w).map minuteOf).dedup

/-- `error_endpoints` for one minute (line 387): distinct endpoints with an
error record in that minute bucket. -/
def errorEndpointsAt (w : List Record) (m : Nat) : List String :=
  (((errorRecords w).filter (fun r => decide (minuteOf r = m))).map (·.endpoint)).dedup

/-- The `for endpoint1 ... for endpoint2 ... if endpoint1 != endpoint2`
double loop over one minute's error-endpoint set (lines 390-393),
flattened to the ordered pairs whose counters it bumps. -/
def minutePairs (w : List Record) (m : Nat) : List (String × String) :=
  (errorEndpointsAt w m).flatMap (fun e1 =>
    (errorEndpointsAt w m).filterMap (fun e2 => if e1 ≠ e2 then some (e1, e2) else none))

/-- `endpoint_correlations` (lines 383-393): the nested
`defaultdict(lambda: defaultdict(int))` flattened to a pair-keyed counter
dict, bumped once per pair occurrence across all error minutes. -/
def endpoint_correlations (w : List Record) : List ((String × String) × Nat) :=
  tally ((errorMinutes w).flatMap (minutePairs w))

/-- The co-occurrence count the analyzer holds for an ordered endpoint
pair (0 when the pair was never bumped). -/
def coCount (w : List Record) (a b : String) : Nat :=
  lookupD (endpoint_correlations w) (a, b)

/-- `likely_dependencies` (lines 396-404): the dict entries with count at
least 3. -/
def likely_dependencies (w : List Record) : List (String × String × Nat) :=
  (endpoint_correlations w).filterMap
    (fun p => if 3 ≤ p.2 then some (p.1.1, p.1.2, p.2) else none)

/-- Output of `analyze_dependency_correlation` in the non-trivial case. -/
structure DependencyReport where
  endpoint_correlations : List ((String × String) × Nat)
  likely_dependencies : List (String × String × Nat)
deriving DecidableEq

/-- `analyze_dependency_correlation` (lines 360-409). -/
def analyze_dependency_correlation (w : List Record) : Option DependencyReport :=
  if w = [] then none
  else some ⟨endpoint_correlations w, likely_dependencies w⟩

/-- Modelled from the spec wording of C5: endpoint `e` has at least one
failing call in minute bucket `m`. -/
def hasFailureIn (w : List Record) (e : String) (m : Nat) : Bool :=
  w.any (fun r => isError r && decide (r.endpoint = e) && decide (minuteOf r = m))

/-- Modelled from the spec wording of C5: the number of distinct
floor-to-the-minute buckets in which both endpoints have a failing call. -/
def coFailureSpec (w : List Record) (a b : String) : Nat :=
  ((w.map minuteOf).dedup.filter
    (fun m => hasFailureIn w a m && hasFailureIn w b m)).length

/-- `f"{method} {endpoint}"` (line 251). -/
def callOf (r : Record) : String := r.method ++ " " ++ r.endpoint

/-- One emitted error-sequence entry (lines 266-271). -/
structure ErrSeqEntry where
  error_endpoint : String
  status_code : Nat
  preceding_calls : List String
  timestamp : Nat
deriving DecidableEq

/-- The per-client loop of lines 247-273, carrying `call_sequence` in
most-recent-first order.  On an error with at least three calls seen so
far it emits the last three calls: the failing call plus the two before
it, in chronological order (`call_sequence[-3:]`).  The source's
`current_error_sequence` variable is write-only and does not reach the
output, so it is not carried. -/
def seqLoop : List String → List Record → List ErrSeqEntry
  | _, [] => []
  | prev, r :: rest =>
    let call := callOf r
    let calls := call :: prev
    (if 400 ≤ r.status_code ∧ 3 ≤ calls.length then
       match prev with
       | c1 :: c2 :: _ => [⟨call, r.status_code, [c2, c1], r.timestamp⟩]
       | _ => []
     else []) ++ seqLoop calls rest

/-- `error_sequences` for one client group. -/
def error_sequences_client (g : List Record) : List ErrSeqEntry := seqLoop [] g

/-- Insertion into a sorted list under a boolean comparison. -/
def insertSorted {α : Type} (le : α → α → Bool) (x : α) : List α → List α
  | [] => [x]
  | y :: ys => if le x y then x :: y :: ys else y :: insertSorted le x ys

/-- Comparison sort (pandas `sort_values` / Python `sorted`; tie order is
implementation detail in both and unobserved by the verified claims). -/
def sortByB {α : Type} (le : α → α → Bool) : List α → List α
  | [] => []
  | x :: xs => insertSorted le x (sortByB le xs)

/-- `df.sort_values('timestamp')` (line 237). -/
def sortWindow (w : List Record) : List Record :=
  sortByB (fun r s => decide (r.timestamp ≤ s.timestamp)) w

/-- Boolean string order for pandas groupby key sorting. -/
def strLe (s t : String) : Bool := !(decide (t < s))

/-- The groupby keys of `df_sorted.groupby('client_ip')`, ascending as
pandas sorts group keys. -/
def clients (w : List Record) : List String :=
  sortByB strLe ((sortWindow w).map (·.client_ip)).dedup

/-- One client's partition of the time-sorted window. -/
def clientGroup (w : List Record) (ip : String) : List Record :=
  (sortWindow w).filter (fun r => decide (r.client_ip = ip))

/-- `' -> '.join(...)` (Python `str.join`). -/
def joinSep (sep : String) : List String → String
  | [] => ""
  | [x] => x
  | x :: xs => x ++ sep ++ joinSep sep xs

/-- The aggregation key of line 287:
`' -> '.join(seq['preceding_calls']) + ' -> ' + seq['error_endpoint']`. -/
def patternKey (e : ErrSeqEntry) : String :=
  joinSep " -> " e.preceding_calls ++ " -> " ++ e.error_endpoint

/-- Output of `analyze_sequence_patterns` in the non-trivial case
(lines 294-298); the per-client dict is flattened into `client_count`
and the concatenated `error_sequences`. -/
structure SequenceReport where
  client_count : Nat
  common_error_patterns : List (String × Nat)
  error_sequences : List ErrSeqEntry
deriving DecidableEq

/-- `all_error_sequences` (lines 282-289), concatenated over clients. -/
def allErrorSequences (w : List Record) : List ErrSeqEntry :=
  (clients w).flatMap (fun ip => error_sequences_client (clientGroup w ip))

/-- `analyze_sequence_patterns` (lines 222-298). -/
def analyze_sequence_patterns (w : List Record) : Option SequenceReport :=
  if w = [] then none
  else
    let seqs := allErrorSequences w
    let cp := tally (seqs.map patternKey)
    some ⟨(clients w).length, sortByB (fun p q => decide (q.2 ≤ p.2)) cp, seqs⟩

/-- Placeholder row for total indexing (`getD`); never selected on the
paths the theorems take. -/
def defaultRecord : Record := ⟨0, "", "", "", 0, none, .absent⟩

/-- The rolling history the loop has accumulated before position `i` of a
group, most recent first: the first `i` calls reversed onto the initial
history. -/
def histAt (prev : List String) (g : List Record) (i : Nat) : List String :=
  ((g.take i).map callOf).reverse ++ prev

/-- The entry the loop emits at position `i`, phrased by index. -/
def seqSpecBody (prev : List String) (g : List Record) (i : Nat) : Option ErrSeqEntry :=
  let r := g.getD i defaultRecord
  if 400 ≤ r.status_code ∧ 3 ≤ prev.length + i + 1 then
    some ⟨callOf r, r.status_code,
      [(histAt prev g i).getD 1 "", (histAt prev g i).getD 0 ""], r.timestamp⟩
  else none

/-- The claim's index phrasing of the per-client output: an entry exactly
at each error position `i ≥ 2` (1-indexed position at least 3), whose
preceding calls are the two immediately before it, with no condition on
their own status codes. -/
def seqEntriesByIndex (g : List Record) : List ErrSeqEntry :=
  (List.range g.length).filterMap (fun i =>
    if 2 ≤ i ∧ 400 ≤ (g.getD i defaultRecord).status_code then
      some ⟨callOf (g.getD i defaultRecord), (g.getD i defaultRecord).status_code,
            [callOf (g.getD (i - 2) defaultRecord), callOf (g.getD (i - 1) defaultRecord)],
            (g.getD i defaultRecord).timestamp⟩
    else none)

/-- Cross-multiplication order `a/b <= c/d` for positive denominators. -/
def fracLe (x y : Frac) : Bool := x.num * (y.den : Int) ≤ y.num * (x.den : Int)

/-- Exact sum of a list of fractions. -/
def fracSum : List Frac → Frac
  | [] => fracOfNat 0
  | x :: xs => fracAdd x (fracSum xs)

/-- Minimum of a list of fractions (pandas `.min()`; 0 for an empty list,
which never occurs on the paths taken). -/
def fracMinL : List Frac → Frac
  | [] => fracOfNat 0
  | x :: xs => xs.foldl (fun a b => if fracLe a b then a else b) x

/-- Maximum of a list of fractions (pandas `.max()`). -/
def fracMaxL : List Frac → Frac
  | [] => fracOfNat 0
  | x :: xs => xs.foldl (fun a b => if fracLe b a then a else b) x

/-- `sklearn` neighbourhood query for 1-dimensional points: indices within
`eps = 200` inclusive of point `i`, the point itself included. -/
def regionQuery (xs : List Frac) (i : Nat) : List Nat :=
  (List.range xs.length).filter (fun j =>
    fracLe (fracAbs (fracSub (xs.getD i (fracOfNat 0)) (xs.getD j (fracOfNat 0))))
      (fracOfNat 200))

/-- `min_samples = 5` core-point test. -/
def isCore (xs : List Frac) (i : Nat) : Bool := decide (5 ≤ (regionQuery xs i).length)

/-- The stack-driven cluster expansion of sklearn's `dbscan_inner`: pop an
index, label it if unlabelled, and for a core point push its unlabelled
neighbours (reversed to mimic the LIFO pop order; the difference affects
only border-point ties, which sklearn documents as order-dependent).
Fuel bounds the loop; `n*n + n + 1` exceeds the possible pushes. -/
def dbscanExpand (xs : List Frac) : Nat → List Int → Int → List Nat → List Int
  | 0, labels, _, _ => labels
  | fuel + 1, labels, cid, stack =>
    match stack with
    | [] => labels
    | i :: rest =>
      if labels.getD i 0 = -1 then
        let labels' := labels.set i cid
        if isCore xs i then
          dbscanExpand xs fuel labels' cid
            (((regionQuery xs i).filter
                (fun v => decide (labels'.getD v 0 = -1))).reverse ++ rest)
        else dbscanExpand xs fuel labels' cid rest
      else dbscanExpand xs fuel labels cid rest

/-- The outer scan of `dbscan_inner`: start a new cluster at each
unlabelled core point in index order. -/
def dbscanMain (xs : List Frac) : List Nat → List Int → Int → List Int
  | [], labels, _ => labels
  | i :: rest, labels, cid =>
    if labels.getD i 0 ≠ -1 ∨ isCore xs i = false then
      dbscanMain xs rest labels cid
    else
      dbscanMain xs rest
        (dbscanExpand xs (xs.length * xs.length + xs.length + 1) labels cid [i]) (cid + 1)

/-- `DBSCAN(eps=200, min_samples=5).fit(X).labels_` for the 1-dimensional
input; noise keeps label -1. -/
def dbscanLabels (xs : List Frac) : List Int :=
  dbscanMain xs (List.range xs.length) (List.replicate xs.length (-1)) 0

/-- One `slow_endpoints` entry (lines 202-207). -/
structure SlowEndpoint where
  endpoint : String
  method : String
  count : Nat
  mean_response_time : Frac
deriving DecidableEq

/-- One cluster's stats (lines 209-215). -/
structure ClusterInfo where
  size : Nat
  avg_response_time : Frac
  min_response_time : Frac
  max_response_time : Frac
  slow_endpoints : List SlowEndpoint
deriving DecidableEq

/-- Output of `cluster_response_times` in the non-trivial case
(lines 217-220); cluster keys are the integer labels (the source renders
them as strings "cluster_<label>"). -/
structure ClusterReport where
  cluster_count : Nat
  clusters : List (Int × ClusterInfo)
deriving DecidableEq

/-- `{}` versus a populated clustering report. -/
inductive ClusterResult where
  | empty
  | report (r : ClusterReport)
deriving DecidableEq

/-- Does the record carry a response time? -/
def hasRT (r : Record) : Bool := r.response_time_ms.isSome

/-- Lexicographic order on (endpoint, method) keys: pandas `groupby`
sorts group keys ascending. -/
def pairLe (p q : String × String) : Bool :=
  if p.1 = q.1 then strLe p.2 q.2 else strLe p.1 q.1

/-- `cluster_response_times` (lines 152-220).  The guard of line 163 is
`df.empty or 'response_time_ms' not in df.columns`; the column is absent
exactly when no record has the field.  When the column exists but some
record lacks the value, the column holds NaN and `DBSCAN.fit` rejects the
input (sklearn validates against NaN), which the caller does not catch:
modelled as `Except.error`.  `set(labels)` iteration is modelled in
first-occurrence order. -/
def cluster_response_times (w : List Record) : Except Unit ClusterResult :=
  if w = [] ∨ w.all (fun r => r.response_time_ms = none) then .ok .empty
  else if w.any (fun r => decide (r.response_time_ms = none)) then .error ()
  else
    let values := w.filterMap (fun r => r.response_time_ms)
    let labels := dbscanLabels values
    let rows := w.zip labels
    let clusterIds := (labels.dedup).filter (fun l => decide (l ≠ -1))
    let clusters := clusterIds.map (fun l =>
      let members := rows.filter (fun p => decide (p.2 = l))
      let rts := members.map (fun p => p.1.response_time_ms.getD (fracOfNat 0))
      let pairs := sortByB pairLe ((members.map (fun p => (p.1.endpoint, p.1.method))).dedup)
      (l, (⟨members.length,
           fracDivNat (fracSum rts) members.length,
           fracMinL rts, fracMaxL rts,
           pairs.map (fun pr =>
             let grp := members.filter
               (fun p => decide (p.1.endpoint = pr.1 ∧ p.1.method = pr.2))
             let grts := grp.map (fun p => p.1.response_time_ms.getD (fracOfNat 0))
             ⟨pr.1, pr.2, grp.length, fracDivNat (fracSum grts) grp.length⟩)⟩ : ClusterInfo)))
    .ok (.report ⟨clusters.length, clusters⟩)

/-- Records with a uniform response time for the C8 window. -/
def recRT (t : Nat) (v : Nat) : Record :=
  ⟨t, "10.2.2.2", "/fetch", "GET", 200, some (fracOfNat v), .absent⟩

/-- A record with no response time. -/
def recNoRT : Record := ⟨50, "10.2.2.2", "/fetch", "GET", 200, none, .absent⟩

/-- Mixed window: five records with response times and one without. -/
def wC8 : List Record :=
  [recRT 0 100, recRT 10 100, recRT 20 100, recRT 30 100, recRT 40 100, recNoRT]

/-- ASCII uppercasing of one character. -/
def upperChar (c : Char) : Char :=
  if 97 ≤ c.toNat ∧ c.toNat ≤ 122 then Char.ofNat (c.toNat - 32) else c

/-- Python `str.title()` over space-separated ASCII words (the only shape
the category names take after `replace('_', ' ')`). -/
def titleChars : List Char → Bool → List Char
  | [], _ => []
  | c :: cs, atStart =>
    (if c = ' ' then c else if atStart then upperChar c else lowerChar c)
      :: titleChars cs (c = ' ')

def pyTitle (s : String) : String := ⟨titleChars s.data true⟩

/-- `replace('_', ' ')`. -/
def replaceUnderscores (s : String) : String :=
  ⟨s.data.map (fun c => if c = '_' then ' ' else c)⟩

/-- `f"{x:.1f}"` on the exact value: one decimal digit, rounding half away
from zero (Python formats binary floats with round-half-even; exact ties
do not arise on the values this system formats). -/
def fmt1 (q : Frac) : String :=
  let t := (q.num * 10 * 2 + (q.den : Int)) / (2 * (q.den : Int))
  toString (t / 10) ++ "." ++ toString (t % 10)

/-- `f"{x:.1%}"`. -/
def fmtPct (q : Frac) : String := fmt1 (fracMul q (fracOfNat 100)) ++ "%"

/-- Error-category insights (lines 507-516): top three categories by
count, each reported when its share is at least 20 percent. -/
def errorTypeInsights : ErrorPatternsResult → List String
  | .report r =>
    let error_types := r.error_types
    let total_errors := (error_types.map Prod.snd).sum
    if 0 < total_errors then
      ((sortByB (fun p q => decide (q.2 ≤ p.2)) error_types).take 3).filterMap (fun p =>
        let percentage := fracMul (ratio p.2 total_errors) (fracOfNat 100)
        if fracLe (fracOfNat 20) percentage then
          some (pyTitle (replaceUnderscores p.1) ++ " errors account for "
            ++ fmt1 percentage ++ "% of all failures")
        else none)
    else []
  | _ => []

/-- Latency insights (lines 519-529): large slow clusters and their
slowest endpoint. -/
def clusterInsights : ClusterResult → List String
  | .report cr =>
    cr.clusters.flatMap (fun p =>
      if 10 ≤ p.2.size ∧ fracLt (fracOfNat 1000) p.2.avg_response_time then
        ("Identified a group of " ++ toString p.2.size
          ++ " requests with consistently high response times (avg: "
          ++ fmt1 p.2.avg_response_time ++ "ms)") ::
        (match sortByB (fun a b => fracLe b.mean_response_time a.mean_response_time)
            p.2.slow_endpoints with
         | slowest :: _ =>
           ["The slowest endpoint in this group is " ++ slowest.method ++ " "
             ++ slowest.endpoint ++ " with average response time of "
             ++ fmt1 slowest.mean_response_time ++ "ms"]
         | [] => [])
      else [])
  | .empty => []

/-- Sequence insights (lines 532-537): the top two patterns when their
frequency is at least 3. -/
def sequenceInsights : Option SequenceReport → List String
  | some sr =>
    (sr.common_error_patterns.take 2).filterMap (fun p =>
      if 3 ≤ p.2 then
        some ("Detected a common error pattern (" ++ toString p.2
          ++ " occurrences): " ++ p.1)
      else none)
  | none => []

/-- Periodicity insights (lines 540-549). -/
def periodicInsights : Option PeriodicReport → List String
  | some pr =>
    match sortByB (fun a b => decide (a ≤ b)) (pr.problematic_hours.map Prod.fst) with
    | [] => []
    | [h] =>
      let rate := ((pr.problematic_hours.lookup h).getD ⟨0, 0, fracOfNat 0⟩).error_rate
      ["Hour " ++ toString h ++ ":00 shows elevated error rates (" ++ fmtPct rate
        ++ "), which may indicate scheduled jobs or maintenance windows"]
    | hs =>
      ["Multiple hours show elevated error rates: "
        ++ joinSep ", " (hs.map (fun h => toString h ++ ":00"))]
  | none => []

/-- Dependency insights (lines 552-559): the strongest correlation. -/
def dependencyInsights : Option DependencyReport → List String
  | some dr =>
    match sortByB (fun a b => decide (b.2.2 ≤ a.2.2)) dr.likely_dependencies with
    | dep :: _ =>
      ["Detected potential dependency: failures on " ++ dep.1
        ++ " correlate with failures on " ++ dep.2.1 ++ " ("
        ++ toString dep.2.2 ++ " co-occurrences)"]
    | [] => []
  | none => []

/-- `_generate_insights` (lines 489-561). -/
def generate_insights (ep : ErrorPatternsResult) (rtc : ClusterResult)
    (sp : Option SequenceReport) (pf : Option PeriodicReport)
    (dc : Option DependencyReport) : List String :=
  errorTypeInsights ep ++ clusterInsights rtc ++ sequenceInsights sp
    ++ periodicInsights pf ++ dependencyInsights dc

/-- `_generate_recommendations` (lines 563-639). -/
def generate_recommendations (ep : ErrorPatternsResult) (rtc : ClusterResult)
    (sp : Option SequenceReport) (pf : Option PeriodicReport)
    (dc : Option DependencyReport) : List String :=
  (match ep with
   | .report r =>
     let et := r.error_types
     (if 0 < lookupD et "auth_failure" then
        ["Review authentication mechanisms and token lifetimes to address authentication failures"]
      else []) ++
     (if 0 < lookupD et "rate_limit" then
        ["Implement client-side rate limiting or request queuing to prevent rate limit errors"]
      else []) ++
     (if 0 < lookupD et "invalid_input" then
        ["Enhance input validation on the client side before sending requests"]
      else []) ++
     (if 0 < lookupD et "timeout" then
        ["Implement retry mechanisms with exponential backoff for requests that time out"]
      else []) ++
     (if 0 < lookupD et "server_error" then
        ["Check server logs for exceptions and consider implementing circuit breakers for unstable services"]
      else []) ++
     (if 5 < lookupD et "unclassified" then
        ["Implement more detailed error messages in API responses to better classify unidentified errors"]
      else [])
   | _ => []) ++
  (match rtc with
   | .report cr =>
     if cr.clusters.any (fun p => fracLt (fracOfNat 1500) p.2.avg_response_time) then
       ["Consider implementing performance tracing to identify bottlenecks in slow endpoints",
        "Review database queries and external service calls in the slowest endpoints"]
     else []
   | .empty => []) ++
  (match sp with
   | some sr =>
     if sr.common_error_patterns = [] then []
     else ["Analyze API call sequences to identify and fix dependency chains that lead to failures"]
   | none => []) ++
  (match pf with
   | some pr =>
     if pr.problematic_hours = [] then []
     else ["Review scheduled tasks and maintenance windows to reduce impact during high-error time periods"]
   | none => []) ++
  (match dc with
   | some dr =>
     if dr.likely_dependencies = [] then []
     else
       ["Implement health checks and circuit breakers for critical dependencies",
        "Consider implementing fallback mechanisms for frequently failing dependencies"]
   | none => []) ++
  ["Set up automated alerts based on the identified error patterns and thresholds",
   "Implement comprehensive logging with contextual information for better root cause analysis"]

/-- The assembled report of lines 467-480; the generation timestamp and
the JSON file dump (wall clock and disk I/O) are outside the model. -/
structure FullReport where
  total_requests : Nat
  error_requests : Nat
  error_rate : Frac
  error_patterns : ErrorPatternsResult
  response_time_clusters : ClusterResult
  sequence_patterns : Option SequenceReport
  periodic_failures : Option PeriodicReport
  dependency_correlations : Option DependencyReport
  insights : List String
  recommended_actions : List String
deriving DecidableEq

/-- The three return shapes of `generate_failure_report`. -/
inductive Report where
  | noLogs (message : String)
  | summary (total_requests error_requests : Nat) (error_rate : Frac) (message : String)
  | full (r : FullReport)
deriving DecidableEq

/-- `error_requests` of line 427. -/
def errCountW (w : List Record) : Nat := (errorRecords w).length

/-- `error_rate` of line 428 on a non-empty window. -/
def errorRateW (w : List Record) : Frac := ratio (errCountW w) w.length

/-- `generate_failure_report` (lines 411-487) over an already-loaded
window (`load_logs` is file I/O owned by a collaborator).  The analyzers
run in source order; the clusterer's exception is not caught and
propagates. -/
def generate_failure_report (threshold : Frac) (w : List Record) : Except Unit Report :=
  if w = [] then .ok (.noLogs "No logs available for analysis")
  else
    let total_requests := w.length
    let error_requests := errCountW w
    let error_rate := if 0 < total_requests then ratio error_requests total_requests
      else fracOfNat 0
    if fracLt error_rate threshold = true ∧ error_requests < 10 then
      .ok (.summary total_requests error_requests error_rate
        "Error rate below threshold, no detailed analysis performed")
    else do
      let ep := identify_error_patterns w
      let rtc ← cluster_response_times w
      let sp := analyze_sequence_patterns w
      let pf := analyze_periodic_failures w
      let dc := analyze_dependency_correlation w
      return Report.full ⟨total_requests, error_requests, error_rate, ep, rtc, sp, pf, dc,
        generate_insights ep rtc sp pf dc, generate_recommendations ep rtc sp pf dc⟩

/-- Records for the C9 window: one failing call with a response time and
one succeeding call without one. -/
def recC9a : Record :=
  ⟨0, "10.3.3.3", "/pay", "POST", 500, some (fracOfNat 300),
   .dict [("error", .str "internal server error")]⟩

def recC9b : Record := ⟨60, "10.3.3.3", "/pay", "POST", 200, none, .absent⟩

/-- A window that passes the threshold gate and mixes present and missing
response times. -/
def wC9 : List Record := [recC9a, recC9b]

/-- The clustering report the analyzer computes on the five records of
`wC8` that carry response times. -/
def repC8 : ClusterReport :=
  ⟨1, [(0, ⟨5, ⟨500, 5⟩, ⟨100, 1⟩, ⟨100, 1⟩, [⟨"/fetch", "GET", 5, ⟨500, 5⟩⟩]⟩)]⟩

/-- Window for the C7 witness: one client, two successes then an error. -/
def wC7 : List Record :=
  [⟨0, "10.1.1.1", "/one", "GET", 200, none, .absent⟩,
   ⟨10, "10.1.1.1", "/two", "GET", 200, none, .absent⟩,
   ⟨20, "10.1.1.1", "/boom", "POST", 500, none, .dict [("error", .str "internal error")]⟩]

/-- The sequence report the analyzer computes on `wC7`. -/
def repC7 : SequenceReport :=
  ⟨1, [("GET /one -> GET /two -> POST /boom", 1)],
   [⟨"POST /boom", 500, ["GET /one", "GET /two"], 20⟩]⟩

/-- A failing record used by the C5/C6 witnesses. -/
def mkErrC5 (t : Nat) (ep : String) : Record :=
  ⟨t, "10.0.0.9", ep, "GET", 500, none, .dict [("error", .str "internal server error")]⟩

/-- Window in which endpoints /a and /b co-fail in three distinct minutes. -/
def wC5 : List Record :=
  [mkErrC5 0 "/a", mkErrC5 5 "/b", mkErrC5 60 "/a", mkErrC5 65 "/b",
   mkErrC5 120 "/a", mkErrC5 125 "/b"]

/-- Sample record for the C4 counterexample: a non-empty window with no
errors. -/
def recC4 : Record := ⟨7200, "10.0.0.2", "/ping", "GET", 200, some (fracOfNat 10), .absent⟩

/-- Sample window for the C10 witness: one success, one auth failure. -/
def recC10a : Record := ⟨0, "10.0.0.1", "/list", "GET", 200, some (fracOfNat 120), .absent⟩

def recC10b : Record :=
  ⟨30, "10.0.0.1", "/login", "POST", 401, some (fracOfNat 80),
   .dict [("error", .str "Unauthorized")]⟩

def wC10 : List Record := [recC10a, recC10b]

/-- The error-pattern report the analyzer computes on `wC10`: one error,
so its percentage is the double 100.0 (here exactly representable,
stored as 7036874417766400 / 2^46). -/
def repC2w : ErrorPatternsReport :=
  ⟨1, ⟨1, 2⟩, [("auth_failure", 1)],
   [("auth_failure", ⟨7036874417766400, 70368744177664⟩)],
   [("auth_failure", [⟨30, "/login", "POST", 401, "unauthorized"⟩])]⟩

/-- An error record with a given message, for the C10 counterexample. -/
def mkErrC10 (t : Nat) (msgv : String) : Record :=
  ⟨t, "10.4.4.4", "/svc", "GET", 500, none, .dict [("error", .str msgv)]⟩

/-- Three errors in three distinct categories. -/
def wC10x : List Record :=
  [mkErrC10 0 "unauthorized", mkErrC10 5 "timeout", mkErrC10 9 "not found"]

/-- The report the analyzer computes on `wC10x`: each percentage is the
double 33.33333333333333 — the binary64 rounding of `(1/3)*100` — whose
exact value is 4691249611844266 / 2^47. -/
def repC10x : ErrorPatternsReport :=
  ⟨3, ⟨3, 3⟩,
   [("auth_failure", 1), ("timeout", 1), ("resource_unavailable", 1)],
   [("auth_failure", ⟨4691249611844266, 140737488355328⟩),
    ("timeout", ⟨4691249611844266, 140737488355328⟩),
    ("resource_unavailable", ⟨4691249611844266, 140737488355328⟩)],
   [("auth_failure", [⟨0, "/svc", "GET", 500, "unauthorized"⟩]),
    ("timeout", [⟨5, "/svc", "GET", 500, "timeout"⟩]),
    ("resource_unavailable", [⟨9, "/svc", "GET", 500, "not found"⟩])]⟩

/-! ## Theorems -/

/-- One increment adds exactly one to the total of the counter values. -/
theorem bump_snd_sum {κ : Type} [DecidableEq κ] (d : List (κ × Nat)) (k : κ) :
    ((bump d k).map Prod.snd).sum = (d.map Prod.snd).sum + 1 := by
  induction d with
  | nil => rfl
  | cons hd rest ih =>
    obtain ⟨k', n⟩ := hd
    by_cases h : k' = k <;> simp [bump, h, ih] <;> omega

/-- Folding increments over a list adds the list's length to the total. -/
theorem foldl_bump_snd_sum {κ : Type} [DecidableEq κ] (L : List κ) :
    ∀ d : List (κ × Nat),
      ((L.foldl bump d).map Prod.snd).sum = (d.map Prod.snd).sum + L.length := by
  induction L with
  | nil => intro d; simp
  | cons x xs ih =>
    intro d
    have := ih (bump d x)
    simp only [List.foldl_cons, this, bump_snd_sum, List.length_cons]
    omega

/-- The counter component of the per-error loop is the fold of increments
over the per-record categories. -/
theorem foldl_patternStep_fst (rs : List Record) :
    ∀ (t : List (String × Nat)) (d : List (String × List ErrorDetail)),
      (rs.foldl patternStep (t, d)).1 = (rs.map recordCategory).foldl bump t := by
  induction rs with
  | nil => intro t d; rfl
  | cons r rest ih => intro t d; simp [patternStep, ih]

/-- Counterexample to C10 as stated: with three error records in three
distinct categories, line 142 stores each percentage as the double
33.33333333333333 (the binary64 rounding of `(1/3)*100`), and the stored
values sum to 99.99999999999999857891452..., not exactly 100. -/
theorem claim_C10_counterexample :
    identify_error_patterns wC10x = .report repC10x ∧
    ((repC10x.error_percentages.map Prod.snd).map Frac.toRat).sum ≠ 100 := by
  constructor
  · decide
  · simp only [repC10x, List.map_cons, List.map_nil, List.sum_cons, List.sum_nil,
      Frac.toRat]
    norm_num

/-- Claim C10 (amended): on a window with at least one error record, the
classifier gives each error record exactly one category, so the
`error_types` counts sum exactly to `error_count`; each stored percentage
is the binary64 rounding of `v / error_count * 100`, and the exact values
`v / error_count * 100` sum to exactly 100 — the stored doubles
themselves need not (see the counterexample). -/
theorem claim_C10 (w : List Record) (h : errorRecords w ≠ []) :
    ∃ rep : ErrorPatternsReport,
      identify_error_patterns w = .report rep ∧
      rep.error_count = (errorRecords w).length ∧
      (rep.error_types.map Prod.snd).sum = rep.error_count ∧
      (rep.error_types.map
        (fun p => (p.2 : ℚ) / (rep.error_count : ℚ) * 100)).sum = 100 ∧
      rep.error_percentages = rep.error_types.map
        (fun p => (p.1, fmul64 (fdivNat64 p.2 rep.error_count) (fracOfNat 100))) := by
  have hw : w ≠ [] := fun hw => h (by simp [hw, errorRecords])
  set errors := errorRecords w with herr
  set ec := errors.length with hec
  set st := errors.foldl patternStep ([], []) with hst
  have hfst : st.1 = (errors.map recordCategory).foldl bump [] := by
    rw [hst, foldl_patternStep_fst]
  have hts : (st.1.map Prod.snd).sum = ec := by
    rw [hfst, foldl_bump_snd_sum]
    simp [hec]
  have hec0 : ec ≠ 0 := by
    simp only [hec, ne_eq, List.length_eq_zero]
    exact h
  refine ⟨⟨ec, ratio ec w.length, st.1,
      st.1.map (fun p => (p.1, fmul64 (fdivNat64 p.2 ec) (fracOfNat 100))), st.2⟩,
      ?_, rfl, hts, ?_, rfl⟩
  · simp only [identify_error_patterns, if_neg hw, if_neg h]
  · show (st.1.map (fun p => (p.2 : ℚ) / (ec : ℚ) * 100)).sum = 100
    have hmap : st.1.map (fun p => (p.2 : ℚ) / (ec : ℚ) * 100)
        = st.1.map (fun p => (100 / (ec : ℚ)) * (p.2 : ℚ)) := by
      apply List.map_congr_left
      intro p _
      ring
    rw [hmap]
    have key : (st.1.map fun p => ((p.2 : ℚ))).sum = (ec : ℚ) := by
      have h1 : (st.1.map fun p => ((p.2 : ℚ)))
          = (st.1.map Prod.snd).map (fun n : ℕ => (n : ℚ)) := by
        rw [List.map_map]; rfl
      rw [h1, ← Nat.cast_list_sum, hts]
    calc (st.1.map fun p => (100 / (ec : ℚ)) * (p.2 : ℚ)).sum
        = (100 / (ec : ℚ)) * (st.1.map fun p => ((p.2 : ℚ))).sum :=
          List.sum_map_mul_left _ _ _
      _ = (100 / (ec : ℚ)) * (ec : ℚ) := by rw [key]
      _ = 100 := div_mul_cancel₀ 100 (Nat.cast_ne_zero.mpr hec0)

/-- Pointwise sums of mapped naturals split. -/
theorem sum_map_add {α : Type} (L : List α) (g₁ g₂ : α → Nat) :
    (L.map (fun x => g₁ x + g₂ x)).sum = (L.map g₁).sum + (L.map g₂).sum := by
  induction L with
  | nil => rfl
  | cons x t ih => simp [ih]; omega

/-- Summing an equality indicator over a duplicate-free list yields the
membership indicator. -/
theorem sum_map_indicator (v : Nat) :
    ∀ L : List Nat, L.Nodup →
      (L.map (fun h => if v = h then 1 else 0)).sum = if v ∈ L then 1 else 0 := by
  intro L
  induction L with
  | nil => intro _; simp
  | cons x t ih =>
    intro hn
    have hnt : t.Nodup := hn.of_cons
    by_cases hvx : v = x
    · subst hvx
      have hvt : v ∉ t := (List.nodup_cons.mp hn).1
      simp [hvt, ih hnt]
    · simp [hvx, ih hnt]

/-- Partitioning a list by a bounded key and summing the part sizes over
all keys recovers the list's length. -/
theorem sum_range_filter_count {α : Type} (f : α → Nat) (n : Nat) :
    ∀ l : List α, (∀ x ∈ l, f x < n) →
      ((List.range n).map
          (fun h => (l.filter (fun x => decide (f x = h))).length)).sum = l.length := by
  intro l
  induction l with
  | nil => intro _; simp
  | cons x t ih =>
    intro hb
    have hx : f x < n := hb x (by simp)
    have ht : ∀ y ∈ t, f y < n := fun y hy => hb y (by simp [hy])
    have hsplit : (List.range n).map
        (fun h => (((x :: t).filter (fun y => decide (f y = h)))).length)
        = (List.range n).map (fun h =>
            (if f x = h then 1 else 0) + (t.filter (fun y => decide (f y = h))).length) := by
      apply List.map_congr_left
      intro h _
      by_cases hfx : f x = h <;> simp [List.filter, hfx] <;> omega
    rw [hsplit, sum_map_add, ih ht, sum_map_indicator (f x) (List.range n) (List.nodup_range n)]
    simp [List.mem_range.mpr hx]
    omega

/-- Per-hour error count never exceeds the per-hour request count. -/
theorem errorsAtHour_le (w : List Record) (h : Nat) :
    errorsAtHour w h ≤ requestsAtHour w h := by
  unfold errorsAtHour requestsAtHour errorRecords
  rw [List.filter_comm]
  exact List.length_filter_le _ _

/-- The bucket's request count is the hour's request count in both branches. -/
theorem hourlyBucket_request_count (w : List Record) (h : Nat) :
    (hourlyBucket w h).request_count = requestsAtHour w h := by
  unfold hourlyBucket
  by_cases hr : 0 < requestsAtHour w h <;> simp [hr] <;> omega

/-- The bucket's error count is the hour's error count in both branches. -/
theorem hourlyBucket_error_count (w : List Record) (h : Nat) :
    (hourlyBucket w h).error_count = errorsAtHour w h := by
  unfold hourlyBucket
  by_cases hr : 0 < requestsAtHour w h
  · simp [hr]
  · have h0 : requestsAtHour w h = 0 := by omega
    have := errorsAtHour_le w h
    simp [hr]
    omega

/-- Occurrence counts are zero exactly off the list. -/
theorem countOcc_eq_zero {β : Type} [DecidableEq β] (x : β) :
    ∀ L : List β, x ∉ L → countOcc x L = 0 := by
  intro L
  induction L with
  | nil => intro _; rfl
  | cons y t ih =>
    intro hx
    have hyx : ¬ y = x := fun h => hx (by simp [h])
    simp [countOcc, hyx, ih (fun h => hx (by simp [h]))]

/-- Occurrence count of a member of a duplicate-free list is one. -/
theorem countOcc_eq_one {β : Type} [DecidableEq β] (x : β) :
    ∀ L : List β, L.Nodup → x ∈ L → countOcc x L = 1 := by
  intro L
  induction L with
  | nil => intro _ h; simp at h
  | cons y t ih =>
    intro hn hx
    have h1 := List.nodup_cons.mp hn
    by_cases hyx : y = x
    · subst hyx
      simp [countOcc, countOcc_eq_zero y t h1.1]
    · rcases List.mem_cons.mp hx with h | h
      · exact absurd h.symm hyx
      · simp [countOcc, hyx, ih h1.2 h]

/-- Positive occurrence count means membership. -/
theorem countOcc_pos {β : Type} [DecidableEq β] (x : β) :
    ∀ L : List β, 0 < countOcc x L → x ∈ L := by
  intro L
  induction L with
  | nil => intro h; simp [countOcc] at h
  | cons y t ih =>
    intro h
    by_cases hyx : y = x
    · simp [hyx]
    · simp only [countOcc, if_neg hyx, Nat.zero_add] at h
      exact List.mem_cons.mpr (Or.inr (ih h))

/-- Occurrence counts add over append. -/
theorem countOcc_append {β : Type} [DecidableEq β] (x : β) :
    ∀ L₁ L₂ : List β, countOcc x (L₁ ++ L₂) = countOcc x L₁ + countOcc x L₂ := by
  intro L₁ L₂
  induction L₁ with
  | nil => simp [countOcc]
  | cons y t ih => simp [countOcc, ih]; omega

/-- Reading a counter after one increment. -/
theorem lookupD_bump {κ : Type} [DecidableEq κ] (d : List (κ × Nat)) (k k' : κ) :
    lookupD (bump d k) k' = lookupD d k' + if k = k' then 1 else 0 := by
  induction d with
  | nil => by_cases h : k = k' <;> simp [bump, lookupD, h, eq_comm]
  | cons hd rest ih =>
    obtain ⟨k₀, n⟩ := hd
    by_cases h0 : k₀ = k
    · subst h0
      by_cases h1 : k₀ = k' <;> simp [bump, lookupD, h1]
    · by_cases h1 : k₀ = k'
      · subst h1
        have hkk : ¬ k = k₀ := fun h => h0 h.symm
        simp [bump, lookupD, h0, hkk]
      · simp [bump, lookupD, h0, h1, ih]

/-- Reading a counter after folding increments: initial value plus the
number of occurrences. -/
theorem lookupD_foldl_bump {κ : Type} [DecidableEq κ] (L : List κ) :
    ∀ (d : List (κ × Nat)) (k : κ),
      lookupD (L.foldl bump d) k = lookupD d k + countOcc k L := by
  induction L with
  | nil => intro d k; simp [countOcc]
  | cons x t ih =>
    intro d k
    rw [List.foldl_cons, ih, lookupD_bump]
    by_cases h : x = k <;> simp [countOcc, h] <;> omega

/-- The analyzer's pair count is the occurrence count in the flattened
bump stream. -/
theorem coCount_eq_count (w : List Record) (a b : String) :
    coCount w a b = countOcc (a, b) ((errorMinutes w).flatMap (minutePairs w)) := by
  unfold coCount endpoint_correlations tally
  simpa [lookupD] using
    lookupD_foldl_bump ((errorMinutes w).flatMap (minutePairs w)) [] (a, b)

/-- Keys after one increment. -/
theorem mem_keys_bump {κ : Type} [DecidableEq κ] (d : List (κ × Nat)) (k k' : κ) :
    (k' ∈ (bump d k).map Prod.fst) ↔ (k' ∈ d.map Prod.fst ∨ k' = k) := by
  induction d with
  | nil => simp [bump]
  | cons hd rest ih =>
    obtain ⟨k₀, n⟩ := hd
    by_cases h0 : k₀ = k <;> simp [bump, h0, ih] <;> tauto

/-- Increments keep the keys duplicate-free. -/
theorem nodup_keys_bump {κ : Type} [DecidableEq κ] :
    ∀ (d : List (κ × Nat)) (k : κ), (d.map Prod.fst).Nodup →
      ((bump d k).map Prod.fst).Nodup := by
  intro d
  induction d with
  | nil => intro k _; simp [bump]
  | cons hdp rest ih =>
    intro k hd
    obtain ⟨k₀, n⟩ := hdp
    have hd' : (k₀ :: rest.map Prod.fst).Nodup := hd
    have h1 := List.nodup_cons.mp hd'
    by_cases h0 : k₀ = k
    · simpa [bump, h0] using hd
    · simp only [bump, if_neg h0, List.map_cons, List.nodup_cons]
      refine ⟨fun hmem => ?_, ih k h1.2⟩
      rcases (mem_keys_bump rest k k₀).mp hmem with hm | hm
      · exact h1.1 hm
      · exact h0 hm

/-- Keys of the folded counter. -/
theorem mem_keys_foldl_bump {κ : Type} [DecidableEq κ] (L : List κ) :
    ∀ (d : List (κ × Nat)) (k : κ),
      (k ∈ (L.foldl bump d).map Prod.fst) ↔ (k ∈ d.map Prod.fst ∨ k ∈ L) := by
  induction L with
  | nil => intro d k; simp
  | cons x t ih =>
    intro d k
    rw [List.foldl_cons, ih, mem_keys_bump]
    simp
    tauto

/-- Folding increments keeps the keys duplicate-free. -/
theorem nodup_keys_foldl_bump {κ : Type} [DecidableEq κ] (L : List κ) :
    ∀ d : List (κ × Nat), (d.map Prod.fst).Nodup →
      ((L.foldl bump d).map Prod.fst).Nodup := by
  induction L with
  | nil => intro d hd; simpa using hd
  | cons x t ih => intro d hd; exact ih _ (nodup_keys_bump d x hd)

/-- Helper: occurrence count read off a fold of increments from empty. -/
theorem lookupD_tally {κ : Type} [DecidableEq κ] (L : List κ) (k : κ) :
    lookupD (tally L) k = countOcc k L := by
  unfold tally
  simpa [lookupD] using lookupD_foldl_bump L [] k

/-- Association-list membership under duplicate-free keys. -/
theorem mem_assoc_nodup {κ : Type} [DecidableEq κ] :
    ∀ (d : List (κ × Nat)), (d.map Prod.fst).Nodup → ∀ (k : κ) (c : Nat),
      ((k, c) ∈ d ↔ (k ∈ d.map Prod.fst ∧ lookupD d k = c)) := by
  intro d
  induction d with
  | nil => intro _ k c; simp [lookupD]
  | cons hd rest ih =>
    intro hn k c
    obtain ⟨k₀, n⟩ := hd
    have hn' : (k₀ :: rest.map Prod.fst).Nodup := hn
    have h1 := List.nodup_cons.mp hn'
    by_cases h0 : k₀ = k
    · subst h0
      have hnotin : ∀ c' : Nat, (k₀, c') ∉ rest := fun c' hc' =>
        h1.1 (List.mem_map.mpr ⟨_, hc', rfl⟩)
      constructor
      · intro hmem
        rcases List.mem_cons.mp hmem with heq | hmem'
        · have hc : c = n := congrArg Prod.snd heq
          subst hc
          exact ⟨by simp, by simp [lookupD]⟩
        · exact absurd hmem' (hnotin c)
      · rintro ⟨-, hl⟩
        have hc : n = c := by simpa [lookupD] using hl
        subst hc
        exact List.mem_cons_self _ _
    · have hne : (k, c) ≠ (k₀, n) := fun h => h0 (congrArg Prod.fst h).symm
      have hlk : lookupD ((k₀, n) :: rest) k = lookupD rest k := by
        simp [lookupD, h0]
      constructor
      · intro hmem
        rcases List.mem_cons.mp hmem with heq | hmem'
        · exact absurd heq hne
        · obtain ⟨hk, hl⟩ := (ih h1.2 k c).mp hmem'
          exact ⟨List.mem_cons.mpr (Or.inr hk), by rw [hlk]; exact hl⟩
      · rintro ⟨hk, hl⟩
        rcases List.mem_cons.mp hk with hk' | hk'
        · exact absurd hk'.symm h0
        · exact List.mem_cons.mpr
            (Or.inr ((ih h1.2 k c).mpr ⟨hk', by rw [hlk] at hl; exact hl⟩))

/-- Membership in a tally: the key occurs and the value is its count. -/
theorem mem_tally {κ : Type} [DecidableEq κ] (L : List κ) (k : κ) (c : Nat) :
    ((k, c) ∈ tally L) ↔ (k ∈ L ∧ countOcc k L = c) := by
  have h := mem_assoc_nodup (tally L)
    (nodup_keys_foldl_bump L [] (by simp)) k c
  rw [h, lookupD_tally]
  unfold tally
  rw [mem_keys_foldl_bump]
  simp

/-- Occurrence counts distribute over `flatMap`. -/
theorem count_flatMap_sum {α β : Type} [DecidableEq β] (L : List α) (f : α → List β) (b : β) :
    countOcc b (L.flatMap f) = (L.map (fun a => countOcc b (f a))).sum := by
  induction L with
  | nil => rfl
  | cons x t ih => simp [countOcc_append, ih]

/-- Membership in one `endpoint1` row of the pair double loop. -/
theorem mem_pairRow {e1 a b : String} {S : List String} :
    ((a, b) ∈ S.filterMap (fun e2 => if e1 ≠ e2 then some (e1, e2) else none)) ↔
      (e1 = a ∧ b ∈ S ∧ e1 ≠ b) := by
  rw [List.mem_filterMap]
  constructor
  · rintro ⟨e2, he2, heq⟩
    by_cases h : e1 = e2
    · simp [h] at heq
    · simp only [if_pos h, Option.some.injEq, Prod.mk.injEq] at heq
      obtain ⟨rfl, rfl⟩ := heq
      exact ⟨rfl, he2, h⟩
  · rintro ⟨rfl, hb, hne⟩
    exact ⟨b, hb, by simp [hne]⟩

/-- One `endpoint1` row of pairs is duplicate-free when the endpoint set is. -/
theorem nodup_pairRow {e1 : String} {S : List String} (hS : S.Nodup) :
    (S.filterMap (fun e2 => if e1 ≠ e2 then some (e1, e2) else none)).Nodup := by
  apply List.Nodup.filterMap _ hS
  intro x y p hx hy
  by_cases h1 : e1 = x
  · simp [h1] at hx
  · by_cases h2 : e1 = y
    · simp [h2] at hy
    · simp only [Option.mem_def, if_pos h1, Option.some.injEq] at hx
      simp only [Option.mem_def, if_pos h2, Option.some.injEq] at hy
      rw [← hx] at hy
      exact (congrArg Prod.snd hy).symm

/-- Indicator sums over a duplicate-free list collapse to a membership test. -/
theorem sum_map_ite_eq {α : Type} [DecidableEq α] (v : α) (c : Nat) :
    ∀ L : List α, L.Nodup →
      (L.map (fun x => if x = v then c else 0)).sum = if v ∈ L then c else 0 := by
  intro L
  induction L with
  | nil => intro _; simp
  | cons x t ih =>
    intro hn
    have h1 := List.nodup_cons.mp hn
    by_cases hvx : x = v
    · subst hvx
      simp [h1.1, ih h1.2]
    · simp only [List.map_cons, List.sum_cons, if_neg hvx, ih h1.2, List.mem_cons]
      have : ¬ v = x := fun h => hvx h.symm
      simp [this]

/-- Count of a fixed pair contributed by one minute of the double loop. -/
theorem count_minutePairs (w : List Record) (m : Nat) (a b : String) :
    countOcc (a, b) (minutePairs w m) =
      if a ∈ errorEndpointsAt w m ∧ b ∈ errorEndpointsAt w m ∧ a ≠ b then 1 else 0 := by
  unfold minutePairs
  rw [count_flatMap_sum]
  have hS : (errorEndpointsAt w m).Nodup := List.nodup_dedup _
  have hrow : (errorEndpointsAt w m).map (fun e1 =>
        countOcc (a, b) ((errorEndpointsAt w m).filterMap
          (fun e2 => if e1 ≠ e2 then some (e1, e2) else none)))
      = (errorEndpointsAt w m).map (fun e1 =>
          if e1 = a then (if b ∈ errorEndpointsAt w m ∧ a ≠ b then 1 else 0) else 0) := by
    apply List.map_congr_left
    intro e1 _
    by_cases hmem : (a, b) ∈ (errorEndpointsAt w m).filterMap
        (fun e2 => if e1 ≠ e2 then some (e1, e2) else none)
    · have hmp := mem_pairRow.mp hmem
      rw [countOcc_eq_one _ _ (nodup_pairRow hS) hmem]
      obtain ⟨he1a, hb, hne⟩ := hmp
      subst he1a
      simp [hb, hne]
    · rw [countOcc_eq_zero _ _ hmem]
      rw [mem_pairRow] at hmem
      by_cases h1 : e1 = a
      · subst h1
        have h2 : ¬ (b ∈ errorEndpointsAt w m ∧ e1 ≠ b) := fun hc =>
          hmem ⟨rfl, hc.1, hc.2⟩
        simp [h2]
      · simp [h1]
  rw [hrow, sum_map_ite_eq a _ _ hS]
  by_cases ha : a ∈ errorEndpointsAt w m <;> simp [ha]

/-- Indicator sums count the filtered elements. -/
theorem sum_map_boole {α : Type} (p : α → Prop) [DecidablePred p] :
    ∀ L : List α,
      (L.map (fun x => if p x then 1 else 0)).sum
        = (L.filter (fun x => decide (p x))).length := by
  intro L
  induction L with
  | nil => rfl
  | cons x t ih => by_cases h : p x <;> simp [List.filter, h, ih] <;> omega

/-- The co-occurrence count for a distinct pair is the number of error
minutes whose endpoint set contains both endpoints. -/
theorem coCount_eq_filter (w : List Record) (a b : String) (hab : a ≠ b) :
    coCount w a b = ((errorMinutes w).filter
      (fun m => decide (a ∈ errorEndpointsAt w m ∧ b ∈ errorEndpointsAt w m))).length := by
  rw [coCount_eq_count, count_flatMap_sum]
  have heq : (errorMinutes w).map (fun m => countOcc (a, b) (minutePairs w m))
      = (errorMinutes w).map (fun m =>
          if a ∈ errorEndpointsAt w m ∧ b ∈ errorEndpointsAt w m then 1 else 0) := by
    apply List.map_congr_left
    intro m _
    rw [count_minutePairs]
    by_cases h : a ∈ errorEndpointsAt w m ∧ b ∈ errorEndpointsAt w m <;> simp [h, hab]
  rw [heq, sum_map_boole]

/-- The analyzer's per-minute endpoint set agrees with the spec's
"has at least one failing call in the bucket" description. -/
theorem mem_errorEndpointsAt {w : List Record} {m : Nat} {e : String} :
    (e ∈ errorEndpointsAt w m) ↔ hasFailureIn w e m = true := by
  unfold errorEndpointsAt hasFailureIn errorRecords
  simp only [List.mem_dedup, List.mem_map, List.mem_filter, List.any_eq_true,
    Bool.and_eq_true, decide_eq_true_eq]
  constructor
  · rintro ⟨r, ⟨⟨hrw, h400⟩, hm⟩, he⟩
    exact ⟨r, hrw, ⟨h400, he⟩, hm⟩
  · rintro ⟨r, hrw, ⟨h400, he⟩, hm⟩
    exact ⟨r, ⟨⟨hrw, h400⟩, hm⟩, he⟩

/-- A bucket with a failing call for some endpoint appears in both minute
base lists. -/
theorem hasFailureIn_mem_minutes {w : List Record} {m : Nat} {e : String}
    (h : hasFailureIn w e m = true) :
    m ∈ errorMinutes w ∧ m ∈ (w.map minuteOf).dedup := by
  unfold hasFailureIn at h
  simp only [List.any_eq_true, Bool.and_eq_true, decide_eq_true_eq] at h
  obtain ⟨r, hrw, ⟨hise, -⟩, hm⟩ := h
  constructor
  · unfold errorMinutes errorRecords
    simp only [List.mem_dedup, List.mem_map, List.mem_filter]
    exact ⟨r, ⟨hrw, hise⟩, hm⟩
  · simp only [List.mem_dedup, List.mem_map]
    exact ⟨r, hrw, hm⟩

/-- The analyzer's count for a distinct pair equals the spec's co-failure
count: the number of distinct minute buckets where both endpoints fail. -/
theorem coCount_eq_spec (w : List Record) (a b : String) (hab : a ≠ b) :
    coCount w a b = coFailureSpec w a b := by
  rw [coCount_eq_filter w a b hab]
  unfold coFailureSpec
  apply List.Perm.length_eq
  apply (List.perm_ext_iff_of_nodup ((List.nodup_dedup _).filter _)
    ((List.nodup_dedup _).filter _)).mpr
  intro m
  simp only [List.mem_filter, decide_eq_true_eq, Bool.and_eq_true]
  constructor
  · rintro ⟨-, ha, hb⟩
    have ha' := mem_errorEndpointsAt.mp ha
    have hb' := mem_errorEndpointsAt.mp hb
    exact ⟨(hasFailureIn_mem_minutes ha').2, ha', hb'⟩
  · rintro ⟨-, ha, hb⟩
    exact ⟨(hasFailureIn_mem_minutes ha).1,
      mem_errorEndpointsAt.mpr ha, mem_errorEndpointsAt.mpr hb⟩

/-- Co-occurrence counts are symmetric for distinct pairs. -/
theorem coCount_symm (w : List Record) (a b : String) (hab : a ≠ b) :
    coCount w a b = coCount w b a := by
  rw [coCount_eq_filter w a b hab, coCount_eq_filter w b a (fun h => hab h.symm)]
  congr 1
  apply List.filter_congr
  intro m _
  exact decide_eq_decide.mpr and_comm

/-- The diagonal is never bumped: a pair of equal endpoints has count 0. -/
theorem coCount_self (w : List Record) (a : String) : coCount w a a = 0 := by
  rw [coCount_eq_count]
  apply countOcc_eq_zero
  intro hmem
  rw [List.mem_flatMap] at hmem
  obtain ⟨m, -, hm⟩ := hmem
  unfold minutePairs at hm
  rw [List.mem_flatMap] at hm
  obtain ⟨e1, -, hrow⟩ := hm
  obtain ⟨he1, -, hne⟩ := mem_pairRow.mp hrow
  exact hne he1

/-- Error minutes only shrink when the window shrinks. -/
theorem errorMinutes_mono {w w' : List Record} (h : w ⊆ w') :
    errorMinutes w ⊆ errorMinutes w' := by
  intro m hm
  unfold errorMinutes errorRecords at hm ⊢
  simp only [List.mem_dedup, List.mem_map, List.mem_filter] at hm ⊢
  obtain ⟨r, ⟨hrw, hise⟩, hmin⟩ := hm
  exact ⟨r, ⟨h hrw, hise⟩, hmin⟩

/-- Per-minute failing endpoint sets only shrink when the window shrinks. -/
theorem errorEndpointsAt_mono {w w' : List Record} (h : w ⊆ w') (m : Nat) :
    errorEndpointsAt w m ⊆ errorEndpointsAt w' m := by
  intro e hee
  unfold errorEndpointsAt errorRecords at hee ⊢
  simp only [List.mem_dedup, List.mem_map, List.mem_filter] at hee ⊢
  obtain ⟨r, ⟨⟨hrw, hise⟩, hmin⟩, hep⟩ := hee
  exact ⟨r, ⟨⟨h hrw, hise⟩, hmin⟩, hep⟩

/-- Claim C5: for distinct endpoints the analyzer's co-occurrence count is
the number of distinct minute buckets in which both endpoints have a
failing record; counts are symmetric; and `likely_dependencies` holds
exactly the pairs whose count is at least 3. -/
theorem claim_C5 (w : List Record) (a b : String) (hab : a ≠ b) :
    coCount w a b = coFailureSpec w a b ∧
    coCount w a b = coCount w b a ∧
    ∀ c : Nat, ((a, b, c) ∈ likely_dependencies w ↔ (c = coCount w a b ∧ 3 ≤ c)) := by
  refine ⟨coCount_eq_spec w a b hab, coCount_symm w a b hab, fun c => ?_⟩
  unfold likely_dependencies endpoint_correlations
  rw [List.mem_filterMap]
  constructor
  · rintro ⟨⟨⟨a', b'⟩, c'⟩, hmem, heq⟩
    by_cases h3 : 3 ≤ c'
    · rw [if_pos h3] at heq
      have h' := Option.some.inj heq
      have ha : a' = a := congrArg (fun p => p.1) h'
      have hb : b' = b := congrArg (fun p => p.2.1) h'
      have hc : c' = c := congrArg (fun p => p.2.2) h'
      subst ha; subst hb; subst hc
      have hm := (mem_tally _ _ _).mp hmem
      rw [coCount_eq_count]
      exact ⟨hm.2.symm, h3⟩
    · rw [if_neg h3] at heq
      exact Option.noConfusion heq
  · rintro ⟨rfl, h3⟩
    refine ⟨((a, b), coCount w a b), ?_, ?_⟩
    · apply (mem_tally _ _ _).mpr
      refine ⟨?_, (coCount_eq_count w a b).symm⟩
      apply countOcc_pos
      rw [← coCount_eq_count]
      omega
    · rw [if_pos h3]

/-- Witness for C5 on a window where /a and /b co-fail in exactly three
distinct minutes. -/
theorem claim_C5_witness :
    coCount wC5 "/a" "/b" = coFailureSpec wC5 "/a" "/b" ∧
    coCount wC5 "/a" "/b" = coCount wC5 "/b" "/a" ∧
    (("/a", "/b", 3) ∈ likely_dependencies wC5 ↔
      (3 = coCount wC5 "/a" "/b" ∧ 3 ≤ 3)) :=
  ⟨(claim_C5 wC5 "/a" "/b" (by decide)).1,
   (claim_C5 wC5 "/a" "/b" (by decide)).2.1,
   (claim_C5 wC5 "/a" "/b" (by decide)).2.2 3⟩

/-- Claim C6: removing an error record from the window never increases any
co-occurrence count. -/
theorem claim_C6 (w : List Record) (r : Record) (hr : r ∈ w) (he : isError r = true) :
    ∀ a b : String, coCount (w.erase r) a b ≤ coCount w a b := by
  intro a b
  by_cases hab : a = b
  · subst hab
    rw [coCount_self, coCount_self]
  · rw [coCount_eq_filter _ a b hab, coCount_eq_filter _ a b hab]
    apply List.Subperm.length_le
    apply List.subperm_of_subset ((List.nodup_dedup _).filter _)
    intro m hm
    rw [List.mem_filter] at hm
    obtain ⟨hmem, hpred⟩ := hm
    rw [decide_eq_true_eq] at hpred
    rw [List.mem_filter]
    refine ⟨errorMinutes_mono (List.erase_subset r w) hmem, ?_⟩
    rw [decide_eq_true_eq]
    exact ⟨errorEndpointsAt_mono (List.erase_subset r w) m hpred.1,
           errorEndpointsAt_mono (List.erase_subset r w) m hpred.2⟩

/-- Witness for C6: dropping one failing /a record from the C5 window. -/
theorem claim_C6_witness :
    coCount (wC5.erase (mkErrC5 0 "/a")) "/a" "/b" ≤ coCount wC5 "/a" "/b" :=
  claim_C6 wC5 (mkErrC5 0 "/a") (by decide) (by decide) "/a" "/b"

/-- Pointwise equal selectors give equal `filterMap`s. -/
theorem filterMap_congr_mem {α β : Type} (f g : α → Option β) :
    ∀ L : List α, (∀ x ∈ L, f x = g x) → L.filterMap f = L.filterMap g := by
  intro L
  induction L with
  | nil => intro _; rfl
  | cons x t ih =>
    intro h
    rw [List.filterMap_cons, List.filterMap_cons, h x (by simp),
      ih (fun y hy => h y (by simp [hy]))]

/-- Index phrasing of one step of the rolling-history loop. -/
theorem seqLoop_spec (g : List Record) :
    ∀ prev : List String,
      seqLoop prev g = (List.range g.length).filterMap (seqSpecBody prev g) := by
  induction g with
  | nil => intro prev; rfl
  | cons r rest ih =>
    intro prev
    have hbody : ∀ i : Nat, seqSpecBody prev (r :: rest) (Nat.succ i)
        = seqSpecBody (callOf r :: prev) rest i := by
      intro i
      unfold seqSpecBody histAt
      have h1 : (r :: rest).getD (i + 1) defaultRecord = rest.getD i defaultRecord :=
        List.getD_cons_succ
      have h2 : (((r :: rest).take (i + 1)).map callOf).reverse ++ prev
          = ((rest.take i).map callOf).reverse ++ (callOf r :: prev) := by
        rw [List.take_succ_cons, List.map_cons, List.reverse_cons, List.append_assoc]
        rfl
      have h3 : prev.length + (i + 1) + 1 = (callOf r :: prev).length + i + 1 := by
        simp
        omega
      rw [h1, h2, h3]
    show ((if 400 ≤ r.status_code ∧ 3 ≤ (callOf r :: prev).length then
        match prev with
        | c1 :: c2 :: _ => [⟨callOf r, r.status_code, [c2, c1], r.timestamp⟩]
        | _ => []
      else []) ++ seqLoop (callOf r :: prev) rest) = _
    rw [ih (callOf r :: prev)]
    simp only [List.length_cons]
    rw [List.range_succ_eq_map, List.filterMap_cons, List.filterMap_map]
    have hcomp : (seqSpecBody prev (r :: rest)) ∘ Nat.succ
        = seqSpecBody (callOf r :: prev) rest := funext hbody
    rw [hcomp]
    have hhead : seqSpecBody prev (r :: rest) 0
        = if 400 ≤ r.status_code ∧ 3 ≤ prev.length + 1 then
            some ⟨callOf r, r.status_code, [prev.getD 1 "", prev.getD 0 ""], r.timestamp⟩
          else none := by
      unfold seqSpecBody histAt
      simp
    rcases prev with _ | ⟨c1, prev'⟩
    · have hc : ¬ (400 ≤ r.status_code ∧ 3 ≤ ([] : List String).length + 1) := by
        simp
      rw [hhead, if_neg (by simpa using hc)]
      simp [hc]
    · rcases prev' with _ | ⟨c2, tl⟩
      · have hc : ¬ (400 ≤ r.status_code ∧ 3 ≤ ([c1] : List String).length + 1) := by
          simp
        rw [hhead, if_neg (by simpa using hc)]
        simp [hc]
      · by_cases hst : 400 ≤ r.status_code
        · have hc : 400 ≤ r.status_code ∧ 3 ≤ (c1 :: c2 :: tl : List String).length + 1 :=
            ⟨hst, by simp only [List.length_cons]; omega⟩
          rw [hhead, if_pos (by simpa using hc)]
          simp only [if_pos hc]
          rfl
        · have hc : ¬ (400 ≤ r.status_code ∧ 3 ≤ (c1 :: c2 :: tl : List String).length + 1) :=
            fun h => hst h.1
          rw [hhead, if_neg (by simpa using hc)]
          simp [hst]

/-- Reading the rolling history of the first `i` calls. -/
theorem histAt_getD (g : List Record) (i k : Nat) (hk : k < i) (hi : i ≤ g.length) :
    (histAt [] g i).getD k "" = callOf (g.getD (i - 1 - k) defaultRecord) := by
  unfold histAt
  rw [List.append_nil]
  have hlen : ((g.take i).map callOf).length = i := by
    simp [List.length_take, Nat.min_eq_left hi]
  have hk' : k < ((g.take i).map callOf).reverse.length := by
    rw [List.length_reverse, hlen]
    exact hk
  rw [List.getD_eq_getElem _ _ hk', List.getElem_reverse]
  have hb : i - 1 - k < g.length := by omega
  simp only [hlen]
  rw [List.getElem_map, List.getElem_take]
  rw [List.getD_eq_getElem g defaultRecord hb]

/-- The per-client loop output matches the claim's index phrasing. -/
theorem error_sequences_client_spec (g : List Record) :
    error_sequences_client g = seqEntriesByIndex g := by
  unfold error_sequences_client seqEntriesByIndex
  rw [seqLoop_spec g []]
  apply filterMap_congr_mem
  intro i hi
  rw [List.mem_range] at hi
  unfold seqSpecBody
  by_cases hcond : 400 ≤ (g.getD i defaultRecord).status_code ∧ 2 ≤ i
  · have hl : 400 ≤ (g.getD i defaultRecord).status_code ∧
        3 ≤ ([] : List String).length + i + 1 := by
      refine ⟨hcond.1, ?_⟩
      simp
      omega
    rw [if_pos hl, if_pos ⟨hcond.2, hcond.1⟩]
    have h0 := histAt_getD g i 0 (by omega) (le_of_lt hi)
    have h1 := histAt_getD g i 1 (by omega) (le_of_lt hi)
    rw [h0, h1]
    simp [Nat.sub_sub]
  · have hl : ¬ (400 ≤ (g.getD i defaultRecord).status_code ∧
        3 ≤ ([] : List String).length + i + 1) := by
      intro h
      apply hcond
      refine ⟨h.1, ?_⟩
      have := h.2
      simp at this
      omega
    rw [if_neg hl, if_neg (fun h => hcond ⟨h.2, h.1⟩)]

/-- Sorted insertion preserves membership. -/
theorem mem_insertSorted {α : Type} (le : α → α → Bool) (x y : α) :
    ∀ L : List α, (y ∈ insertSorted le x L ↔ y = x ∨ y ∈ L) := by
  intro L
  induction L with
  | nil => simp [insertSorted]
  | cons z t ih =>
    by_cases h : le x z
    · simp [insertSorted, h]
    · simp only [insertSorted, if_neg h, List.mem_cons, ih]
      tauto

/-- Sorting preserves membership. -/
theorem mem_sortByB {α : Type} (le : α → α → Bool) (y : α) :
    ∀ L : List α, (y ∈ sortByB le L ↔ y ∈ L) := by
  intro L
  induction L with
  | nil => simp [sortByB]
  | cons x t ih =>
    simp only [sortByB, mem_insertSorted, List.mem_cons, ih]

/-- Occurrences of a key among mapped values count the matching sources. -/
theorem countOcc_map_filter {α : Type} (f : α → String) (p : String) :
    ∀ L : List α,
      countOcc p (L.map f) = (L.filter (fun s => decide (f s = p))).length := by
  intro L
  induction L with
  | nil => rfl
  | cons x t ih =>
    by_cases h : f x = p <;> simp [countOcc, List.filter, h, ih] <;> omega

/-- Claim C7: per client the analyzer emits an ErrorSequence exactly at
each error record at position three or later, with the two calls
immediately before it (whatever their statuses) as preceding calls; and
each aggregated pattern's frequency is the number of emitted sequences
sharing its key across all clients. -/
theorem claim_C7 (w : List Record) :
    (∀ ip : String, error_sequences_client (clientGroup w ip)
        = seqEntriesByIndex (clientGroup w ip)) ∧
    (∀ rep : SequenceReport, analyze_sequence_patterns w = some rep →
      ∀ (p : String) (n : Nat),
        ((p, n) ∈ rep.common_error_patterns ↔
          (p ∈ (allErrorSequences w).map patternKey ∧
           ((allErrorSequences w).filter
             (fun s => decide (patternKey s = p))).length = n))) := by
  refine ⟨fun ip => error_sequences_client_spec _, fun rep hrep p n => ?_⟩
  unfold analyze_sequence_patterns at hrep
  by_cases hw : w = []
  · rw [if_pos hw] at hrep
    exact Option.noConfusion hrep
  · rw [if_neg hw] at hrep
    have hr := Option.some.inj hrep
    rw [← hr]
    rw [show (⟨(clients w).length,
        sortByB (fun p q => decide (q.2 ≤ p.2)) (tally ((allErrorSequences w).map patternKey)),
        allErrorSequences w⟩ : SequenceReport).common_error_patterns
      = sortByB (fun p q => decide (q.2 ≤ p.2))
          (tally ((allErrorSequences w).map patternKey)) from rfl]
    rw [mem_sortByB, mem_tally, countOcc_map_filter]

/-- Expansion never changes the number of labels. -/
theorem dbscanExpand_length (xs : List Frac) :
    ∀ (fuel : Nat) (labels : List Int) (cid : Int) (stack : List Nat),
      (dbscanExpand xs fuel labels cid stack).length = labels.length := by
  intro fuel
  induction fuel with
  | zero => intro labels cid stack; rfl
  | succ fuel ih =>
    intro labels cid stack
    cases stack with
    | nil => rfl
    | cons i rest =>
      simp only [dbscanExpand]
      by_cases h1 : labels.getD i 0 = -1
      · rw [if_pos h1]
        by_cases h2 : isCore xs i = true
        · rw [if_pos h2, ih]
          simp
        · rw [if_neg h2, ih]
          simp
      · rw [if_neg h1, ih]

/-- The outer scan never changes the number of labels. -/
theorem dbscanMain_length (xs : List Frac) :
    ∀ (idx : List Nat) (labels : List Int) (cid : Int),
      (dbscanMain xs idx labels cid).length = labels.length := by
  intro idx
  induction idx with
  | nil => intro labels cid; rfl
  | cons i rest ih =>
    intro labels cid
    simp only [dbscanMain]
    by_cases h : labels.getD i 0 ≠ -1 ∨ isCore xs i = false
    · rw [if_pos h, ih]
    · rw [if_neg h, ih, dbscanExpand_length]

/-- One label per input point. -/
theorem dbscanLabels_length (xs : List Frac) : (dbscanLabels xs).length = xs.length := by
  unfold dbscanLabels
  rw [dbscanMain_length]
  simp

/-- Extracting a column that is everywhere present keeps the row count. -/
theorem filterMap_length_all_some :
    ∀ w : List Record, (∀ r ∈ w, r.response_time_ms ≠ none) →
      (w.filterMap (fun r => r.response_time_ms)).length = w.length := by
  intro w
  induction w with
  | nil => intro _; rfl
  | cons r t ih =>
    intro h
    cases hv : r.response_time_ms with
    | none => exact absurd hv (h r (by simp))
    | some v =>
      rw [List.filterMap_cons]
      simp only [hv]
      rw [List.length_cons, ih (fun s hs => h s (by simp [hs]))]
      simp

/-- Selecting rows by label is counting that label, when rows and labels
are zipped without truncation. -/
theorem zip_filter_snd_length (l : Int) :
    ∀ (w : List Record) (labels : List Int), w.length = labels.length →
      ((List.zipWith Prod.mk w labels).filter (fun p => decide (p.2 = l))).length
        = (labels.filter (fun x => decide (x = l))).length := by
  intro w
  induction w with
  | nil =>
    intro labels h
    cases labels with
    | nil => rfl
    | cons x ls => simp at h
  | cons r t ih =>
    intro labels h
    cases labels with
    | nil => simp at h
    | cons x ls =>
      have ht : t.length = ls.length := by simpa using h
      rw [List.zipWith_cons_cons, List.filter_cons, List.filter_cons]
      by_cases hx : x = l
      · simp [hx, ih ls ht]
      · simp [hx, ih ls ht]

/-- The clusterer raises on a window mixing present and missing response
times: the NaN column fails sklearn's input validation. -/
theorem cluster_mixed_error (w : List Record)
    (hmiss : ∃ r ∈ w, r.response_time_ms = none)
    (hsome : ∃ r ∈ w, r.response_time_ms ≠ none) :
    cluster_response_times w = Except.error () := by
  obtain ⟨r0, hr0, hnone⟩ := hmiss
  obtain ⟨r1, hr1, hsome1⟩ := hsome
  unfold cluster_response_times
  have hg1 : ¬ (w = [] ∨ w.all (fun r => decide (r.response_time_ms = none)) = true) := by
    rintro (rfl | hall)
    · simp at hr0
    · rw [List.all_eq_true] at hall
      have := hall r1 hr1
      rw [decide_eq_true_eq] at this
      exact hsome1 this
  rw [if_neg (by simpa using hg1)]
  have hg2 : w.any (fun r => decide (r.response_time_ms = none)) = true :=
    List.any_eq_true.mpr ⟨r0, hr0, by simp [hnone]⟩
  rw [if_pos hg2]

/-- Counterexample to C8 as stated: on a window mixing present and
missing response times the analyzer raises (sklearn rejects the NaN
column) instead of clustering the records that do carry a value — the
missing records are not excluded from the clustering input. -/
theorem claim_C8_counterexample :
    cluster_response_times wC8 = Except.error () ∧
    cluster_response_times (wC8.filter hasRT) ≠ Except.error () :=
  ⟨by decide, by decide⟩

/-- Claim C8 (amended): missing response times are not excluded — a window
with some but not all values missing makes the clusterer raise; when every
record carries a value, each reported cluster has a non-noise label and
its size counts exactly the rows with that label, so noise rows belong to
no reported cluster; the output holds only `cluster_count` and the
clusters, with no count of noise records. -/
theorem claim_C8 (w : List Record) :
    ((∃ r ∈ w, r.response_time_ms = none) →
     (∃ r ∈ w, r.response_time_ms ≠ none) →
        cluster_response_times w = Except.error ()) ∧
    (∀ rep : ClusterReport,
      cluster_response_times w = Except.ok (ClusterResult.report rep) →
      rep.cluster_count = rep.clusters.length ∧
      ∀ p ∈ rep.clusters, p.1 ≠ -1 ∧
        p.2.size = ((dbscanLabels (w.filterMap (fun r => r.response_time_ms))).filter
          (fun l => decide (l = p.1))).length) := by
  constructor
  · exact fun hm hs => cluster_mixed_error w hm hs
  · intro rep hrep
    unfold cluster_response_times at hrep
    by_cases hg1 : w = [] ∨ w.all (fun r => decide (r.response_time_ms = none)) = true
    · rw [if_pos (by simpa using hg1)] at hrep
      exact absurd (Except.ok.inj hrep) (by simp)
    · rw [if_neg (by simpa using hg1)] at hrep
      by_cases hg2 : w.any (fun r => decide (r.response_time_ms = none)) = true
      · rw [if_pos hg2] at hrep
        exact Except.noConfusion hrep
      · rw [if_neg hg2] at hrep
        have hall : ∀ r ∈ w, r.response_time_ms ≠ none := by
          intro r hr hn
          exact hg2 (List.any_eq_true.mpr ⟨r, hr, by simp [hn]⟩)
        have hlen : w.length
            = (dbscanLabels (w.filterMap (fun r => r.response_time_ms))).length := by
          rw [dbscanLabels_length, filterMap_length_all_some w hall]
        have hrep' := ClusterResult.report.inj (Except.ok.inj hrep)
        rw [← hrep']
        refine ⟨rfl, fun p hp => ?_⟩
        rw [List.mem_map] at hp
        obtain ⟨l, hl, rfl⟩ := hp
        rw [List.mem_filter] at hl
        refine ⟨by simpa using hl.2, ?_⟩
        exact zip_filter_snd_length l w _ hlen

/-- Witness for C8 (amended): the mixed window raises; on the five-record
all-present window the computed report's cluster count matches. -/
theorem claim_C8_witness :
    cluster_response_times wC8 = Except.error () ∧
    repC8.cluster_count = repC8.clusters.length :=
  ⟨(claim_C8 wC8).1 ⟨recNoRT, by decide, by decide⟩ ⟨recRT 0 100, by decide, by decide⟩,
   ((claim_C8 (wC8.filter hasRT)).2 repC8 (by decide)).1⟩

/-- Witness for C7 on a one-client window whose third call fails. -/
theorem claim_C7_witness :
    error_sequences_client (clientGroup wC7 "10.1.1.1")
        = seqEntriesByIndex (clientGroup wC7 "10.1.1.1") ∧
    (("GET /one -> GET /two -> POST /boom", 1) ∈ repC7.common_error_patterns ↔
      ("GET /one -> GET /two -> POST /boom" ∈ (allErrorSequences wC7).map patternKey ∧
       ((allErrorSequences wC7).filter (fun s =>
          decide (patternKey s = "GET /one -> GET /two -> POST /boom"))).length = 1)) :=
  ⟨(claim_C7 wC7).1 "10.1.1.1",
   (claim_C7 wC7).2 repC7 (by decide) "GET /one -> GET /two -> POST /boom" 1⟩

/-- Counterexample to C4 as stated: a non-empty window whose only record
succeeds makes `analyze_periodic_failures` return `{}` — no hourly
buckets at all — because the analyzer bails out when no record has
`status_code >= 400`. -/
theorem claim_C4_counterexample :
    ([recC4] : List Record) ≠ [] ∧ analyze_periodic_failures [recC4] = none :=
  ⟨by decide, by decide⟩

/-- Claim C4 (amended): on every window with at least one error record,
the periodicity output has one bucket per hour of the day (zero-filled
for hours without records), request counts summing to the window size and
error counts summing to the window's error-record count, exactly. -/
theorem claim_C4 (w : List Record) (h : errorRecords w ≠ []) :
    ∃ rep : PeriodicReport,
      analyze_periodic_failures w = some rep ∧
      rep.hourly_error_rates.length = 24 ∧
      (∀ hr, hr < 24 → ∃ b : HourBucket, (hr, b) ∈ rep.hourly_error_rates ∧
          (requestsAtHour w hr = 0 → b = ⟨0, 0, fracOfNat 0⟩)) ∧
      (rep.hourly_error_rates.map (fun p => p.2.request_count)).sum = w.length ∧
      (rep.hourly_error_rates.map (fun p => p.2.error_count)).sum
        = (errorRecords w).length := by
  have hw : w ≠ [] := fun hw => h (by simp [hw, errorRecords])
  refine ⟨⟨(List.range 24).map (fun hr => (hr, hourlyBucket w hr)),
      ((List.range 24).map (fun hr => (hr, hourlyBucket w hr))).filter
        (fun p => decide (0 < p.2.request_count) &&
          fracLt (fracMul (ratio (errorRecords w).length w.length) ⟨3, 2⟩) p.2.error_rate),
      ratio (errorRecords w).length w.length⟩, ?_, by simp, ?_, ?_, ?_⟩
  · simp only [analyze_periodic_failures, if_neg hw, if_neg h]
  · intro hr hhr
    refine ⟨hourlyBucket w hr, List.mem_map.mpr ⟨hr, List.mem_range.mpr hhr, rfl⟩, ?_⟩
    intro h0
    unfold hourlyBucket
    simp [h0]
  · have : ((List.range 24).map (fun hr => (hr, hourlyBucket w hr))).map
        (fun p => p.2.request_count)
        = (List.range 24).map (fun hr => (w.filter (fun r => decide (hourOf r = hr))).length) := by
      rw [List.map_map]
      apply List.map_congr_left
      intro hr _
      simp [hourlyBucket_request_count, requestsAtHour]
    rw [this, sum_range_filter_count hourOf 24 w
      (fun x _ => Nat.mod_lt _ (by norm_num))]
  · have : ((List.range 24).map (fun hr => (hr, hourlyBucket w hr))).map
        (fun p => p.2.error_count)
        = (List.range 24).map (fun hr =>
            ((errorRecords w).filter (fun r => decide (hourOf r = hr))).length) := by
      rw [List.map_map]
      apply List.map_congr_left
      intro hr _
      simp [hourlyBucket_error_count, errorsAtHour, requestsAtHour]
    rw [this, sum_range_filter_count hourOf 24 (errorRecords w)
      (fun x _ => Nat.mod_lt _ (by norm_num))]

/-- Witness for C4 (amended) on a concrete window with one error record. -/
theorem claim_C4_witness :
    ∃ rep : PeriodicReport,
      analyze_periodic_failures wC10 = some rep ∧
      rep.hourly_error_rates.length = 24 ∧
      (∀ hr, hr < 24 → ∃ b : HourBucket, (hr, b) ∈ rep.hourly_error_rates ∧
          (requestsAtHour wC10 hr = 0 → b = ⟨0, 0, fracOfNat 0⟩)) ∧
      (rep.hourly_error_rates.map (fun p => p.2.request_count)).sum = wC10.length ∧
      (rep.hourly_error_rates.map (fun p => p.2.error_count)).sum
        = (errorRecords wC10).length :=
  claim_C4 wC10 (by decide)

/-- Claim C1: a non-empty window with error rate strictly below the
threshold and fewer than 10 error records yields only the window summary
(counts, rate, status message — no analyzer sections, no insights, no
recommendations); otherwise any produced report is the full one whose
five sections are exactly the five analyzers' outputs and whose insights
and recommendations are the synthesizer's outputs on those sections. -/
theorem claim_C1 (t : Frac) (w : List Record) (hw : w ≠ []) :
    (fracLt (errorRateW w) t = true ∧ errCountW w < 10 →
      generate_failure_report t w = Except.ok (Report.summary w.length (errCountW w)
        (errorRateW w) "Error rate below threshold, no detailed analysis performed")) ∧
    (¬ (fracLt (errorRateW w) t = true ∧ errCountW w < 10) →
      ∀ rep : Report, generate_failure_report t w = Except.ok rep →
        ∃ fr : FullReport, rep = Report.full fr ∧
          fr.total_requests = w.length ∧
          fr.error_requests = errCountW w ∧
          fr.error_patterns = identify_error_patterns w ∧
          cluster_response_times w = Except.ok fr.response_time_clusters ∧
          fr.sequence_patterns = analyze_sequence_patterns w ∧
          fr.periodic_failures = analyze_periodic_failures w ∧
          fr.dependency_correlations = analyze_dependency_correlation w ∧
          fr.insights = generate_insights fr.error_patterns fr.response_time_clusters
            fr.sequence_patterns fr.periodic_failures fr.dependency_correlations ∧
          fr.recommended_actions = generate_recommendations fr.error_patterns
            fr.response_time_clusters fr.sequence_patterns fr.periodic_failures
            fr.dependency_correlations) ∧
    (¬ (fracLt (errorRateW w) t = true ∧ errCountW w < 10) →
      (generate_failure_report t w = Except.error () ↔
        cluster_response_times w = Except.error ())) := by
  have hpos : 0 < w.length := List.length_pos.mpr hw
  refine ⟨?_, ?_, ?_⟩
  · intro hcond
    have hcond' : fracLt (ratio (errCountW w) w.length) t = true ∧ errCountW w < 10 := hcond
    simp only [generate_failure_report, if_neg hw, if_pos hpos]
    rw [if_pos hcond']
    rfl
  · intro hcond rep hrep
    have hcond' : ¬ (fracLt (ratio (errCountW w) w.length) t = true ∧ errCountW w < 10) := hcond
    simp only [generate_failure_report, if_neg hw, if_pos hpos] at hrep
    rw [if_neg hcond'] at hrep
    cases hc : cluster_response_times w with
    | error e =>
      rw [hc] at hrep
      exact Except.noConfusion (show Except.error e = Except.ok rep from hrep)
    | ok c =>
      rw [hc] at hrep
      have hr := Except.ok.inj (show Except.ok _ = Except.ok rep from hrep)
      exact ⟨_, hr.symm, rfl, rfl, rfl, rfl, rfl, rfl, rfl, rfl, rfl⟩
  · intro hcond
    have hcond' : ¬ (fracLt (ratio (errCountW w) w.length) t = true ∧ errCountW w < 10) := hcond
    simp only [generate_failure_report, if_neg hw, if_pos hpos]
    rw [if_neg hcond']
    cases hc : cluster_response_times w with
    | error e =>
      cases e
      simp
    | ok c =>
      constructor
      · intro h
        exact absurd (show Except.ok (Report.full _) = Except.error () from h) (by simp)
      · intro h
        exact Except.noConfusion h

/-- Witness for C1 on a one-record window below the threshold. -/
theorem claim_C1_witness :
    generate_failure_report ⟨1, 5⟩ [recC4] = Except.ok (Report.summary 1 0 ⟨0, 1⟩
      "Error rate below threshold, no detailed analysis performed") :=
  (claim_C1 ⟨1, 5⟩ [recC4] (by decide)).1 (by decide)

/-- Counterexample to C9 as stated: on a window that passes the threshold
gate and whose response-time column mixes present and missing values, an
analyzer (the clusterer) raises and `generate_failure_report` produces no
report at all — no section is marked unavailable and the synthesizer
never runs. -/
theorem claim_C9_counterexample :
    generate_failure_report ⟨1, 5⟩ wC9 = Except.error () := by decide

/-- Claim C9 (amended): `generate_failure_report` has no per-analyzer
exception handling — when an analyzer raises (the clusterer, on a window
with partially missing response times), the exception propagates and the
whole call fails instead of producing a degraded report. -/
theorem claim_C9 (t : Frac) (w : List Record) (hw : w ≠ [])
    (hskip : ¬ (fracLt (errorRateW w) t = true ∧ errCountW w < 10))
    (hmiss : ∃ r ∈ w, r.response_time_ms = none)
    (hsome : ∃ r ∈ w, r.response_time_ms ≠ none) :
    generate_failure_report t w = Except.error () := by
  have hpos : 0 < w.length := List.length_pos.mpr hw
  have hc := cluster_mixed_error w hmiss hsome
  have hskip' : ¬ (fracLt (ratio (errCountW w) w.length) t = true ∧ errCountW w < 10) := hskip
  simp only [generate_failure_report, if_neg hw, if_pos hpos]
  rw [if_neg hskip', hc]
  rfl

/-- Witness for C9 (amended) on the concrete mixed window. -/
theorem claim_C9_witness :
    generate_failure_report ⟨1, 5⟩ wC9 = Except.error () :=
  claim_C9 ⟨1, 5⟩ wC9 (by decide) (by decide) ⟨recC9b, by decide, by decide⟩
    ⟨recC9a, by decide, by decide⟩

/-- Witness for C10 (amended) on a concrete two-record window with one
error. -/
theorem claim_C10_witness :
    ∃ rep : ErrorPatternsReport,
      identify_error_patterns wC10 = .report rep ∧
      rep.error_count = (errorRecords wC10).length ∧
      (rep.error_types.map Prod.snd).sum = rep.error_count ∧
      (rep.error_types.map
        (fun p => (p.2 : ℚ) / (rep.error_count : ℚ) * 100)).sum = 100 ∧
      rep.error_percentages = rep.error_types.map
        (fun p => (p.1, fmul64 (fdivNat64 p.2 rep.error_count) (fracOfNat 100))) :=
  claim_C10 wC10 (by decide)

/-- First-match semantics of the classification loop: if entry `i` of the
pattern list matches and no earlier entry does, the loop returns entry
`i`'s category name. -/
theorem classifyMessage_first (msg : String) :
    ∀ (L : List (String × List String)) (i : Nat) (hi : i < L.length),
      matchesCategory msg (L.get ⟨i, hi⟩).2 = true →
      (∀ j (hj : j < i), matchesCategory msg (L.get ⟨j, Nat.lt_trans hj hi⟩).2 = false) →
      classifyMessage L msg = (L.get ⟨i, hi⟩).1 := by
  intro L
  induction L with
  | nil => intro i hi; simp at hi
  | cons head rest ih =>
    intro i hi hmatch hprev
    obtain ⟨nm, kws⟩ := head
    cases i with
    | zero =>
      simp only [List.get] at hmatch ⊢
      simp [classifyMessage, hmatch]
    | succ k =>
      have h0 : matchesCategory msg kws = false := by
        have := hprev 0 (Nat.succ_pos k)
        simpa using this
      have hk : k < rest.length := by simpa using hi
      have hrec := ih k hk (by simpa using hmatch)
        (fun j hj => by simpa using hprev (j + 1) (by omega))
      simpa [classifyMessage, h0] using hrec

/-- If no category matches, the loop falls through to `unclassified`. -/
theorem classifyMessage_unmatched (msg : String) :
    ∀ (L : List (String × List String)),
      (∀ c ∈ L, matchesCategory msg c.2 = false) →
      classifyMessage L msg = "unclassified" := by
  intro L
  induction L with
  | nil => intro _; rfl
  | cons head rest ih =>
    intro h
    obtain ⟨nm, kws⟩ := head
    have h0 : matchesCategory msg kws = false := h (nm, kws) (by simp)
    simpa [classifyMessage, h0] using ih (fun c hc => h c (by simp [hc]))

/-- Claim C2: error classification checks the fixed taxonomy in order;
the first category with a keyword substring of the message wins and no
later category is checked; with no match anywhere the record is
`unclassified`; in particular a message containing both "unauthorized"
and "timeout" is classified `auth_failure`, the earlier category. -/
theorem claim_C2 (msg : String) :
    (∀ (i : Nat) (hi : i < error_patterns.length),
        matchesCategory msg (error_patterns.get ⟨i, hi⟩).2 = true →
        (∀ j (hj : j < i),
            matchesCategory msg (error_patterns.get ⟨j, Nat.lt_trans hj hi⟩).2 = false) →
        classify msg = (error_patterns.get ⟨i, hi⟩).1) ∧
    ((∀ c ∈ error_patterns, matchesCategory msg c.2 = false) →
        classify msg = "unclassified") ∧
    (containsSub msg "unauthorized" = true → containsSub msg "timeout" = true →
        classify msg = "auth_failure") ∧
    (∀ (w : List Record) (rep : ErrorPatternsReport),
        identify_error_patterns w = .report rep →
        ∀ (cat : String) (n : Nat),
          ((cat, n) ∈ rep.error_types ↔
            (cat ∈ (errorRecords w).map recordCategory ∧
             countOcc cat ((errorRecords w).map recordCategory) = n))) := by
  refine ⟨fun i hi hm hp => classifyMessage_first msg error_patterns i hi hm hp,
          fun h => classifyMessage_unmatched msg error_patterns h, fun hu _ => ?_, ?_⟩
  · have hm : matchesCategory msg
        ["unauthorized", "forbidden", "auth fail", "not authenticated",
         "invalid token", "token expired"] = true := by
      simp [matchesCategory, List.any]
      exact Or.inl hu
    simp [classify, error_patterns, classifyMessage, hm]
  · intro w rep hrep cat n
    simp only [identify_error_patterns] at hrep
    by_cases hw : w = []
    · rw [if_pos hw] at hrep
      exact absurd hrep (by simp)
    · rw [if_neg hw] at hrep
      by_cases he : errorRecords w = []
      · rw [if_pos he] at hrep
        exact absurd hrep (by simp)
      · rw [if_neg he] at hrep
        have hr := ErrorPatternsResult.report.inj hrep
        rw [← hr]
        have hfst : ((errorRecords w).foldl patternStep ([], [])).1
            = tally ((errorRecords w).map recordCategory) := by
          rw [foldl_patternStep_fst]
          rfl
        show ((cat, n) ∈ ((errorRecords w).foldl patternStep ([], [])).1 ↔ _)
        rw [hfst]
        exact mem_tally _ _ _

/-- Witness for C2: a concrete message containing keywords of both the
`auth_failure` and the `timeout` categories, plus the record-level
assignment on a concrete window. -/
theorem claim_C2_witness :
    containsSub "unauthorized timeout" "unauthorized" = true ∧
    containsSub "unauthorized timeout" "timeout" = true ∧
    classify "unauthorized timeout" = "auth_failure" ∧
    (("auth_failure", 1) ∈ repC2w.error_types ↔
      ("auth_failure" ∈ (errorRecords wC10).map recordCategory ∧
       countOcc "auth_failure" ((errorRecords wC10).map recordCategory) = 1)) :=
  ⟨by decide, by decide,
   (claim_C2 "unauthorized timeout").2.2.1 (by decide) (by decide),
   (claim_C2 "unauthorized timeout").2.2.2 wC10 repC2w (by decide) "auth_failure" 1⟩

/-- Counterexample to C3 as stated: for a mapping response body whose
`error` value is the integer 42 (not a string), the matched message is
"42" — the `str()` rendering — not the empty string the claim requires. -/
theorem claim_C3_counterexample :
    extract_error_message (RespBody.dict [("error", PyVal.intVal 42)]) = "42" ∧
    ("42" : String) ≠ "" := ⟨by decide, by decide⟩

/-- Claim C3 (amended): the matched message is empty when `response_body`
is absent, not a mapping, or lacks an `error` key; when an `error` key is
present the message is the lowercased `str()` rendering of its value of
any type — in particular the lowercased value itself when it is a string. -/
theorem claim_C3 (rb : RespBody) :
    (rb = RespBody.absent ∨ rb = RespBody.nonDict → extract_error_message rb = "") ∧
    (∀ fields, rb = RespBody.dict fields → fields.lookup "error" = Option.none →
        extract_error_message rb = "") ∧
    (∀ fields v, rb = RespBody.dict fields → fields.lookup "error" = some v →
        extract_error_message rb = lowerStr (pyStr v)) ∧
    (∀ fields s, rb = RespBody.dict fields → fields.lookup "error" = some (PyVal.str s) →
        extract_error_message rb = lowerStr s) := by
  refine ⟨fun h => ?_, fun fields he hl => ?_, fun fields v he hl => ?_,
          fun fields s he hl => ?_⟩
  · rcases h with h | h <;> subst h <;> rfl
  · subst he; simp [extract_error_message, hl]
  · subst he; simp [extract_error_message, hl]
  · subst he; simp [extract_error_message, hl, pyStr]

/-- Witness for C3 (amended) at a concrete mapping with a string error. -/
theorem claim_C3_witness :
    extract_error_message (RespBody.dict [("error", PyVal.str "Invalid Token")]) =
      "invalid token" := by
  have h := (claim_C3 (RespBody.dict [("error", PyVal.str "Invalid Token")])).2.2.2
      [("error", PyVal.str "Invalid Token")] "Invalid Token" rfl (by decide)
  rw [h]; decide

end APILog
